import Mathlib

/-!
Verification development for the SNES synthesizer rhythmic performance engine.

The definitions below are a shallow embedding of the C++ source:

* `handleClock`, `handleStart`, `handleStop` embed the MIDI clock handlers of
  `main.ino` (tempo sampling and sample-and-hold lock);
* `handleBoogieTiming` embeds the beat scheduler of `playstyles.cpp` (V12.7,
  swing eighth notes and L+R triplets);
* `handleMonophonic` and `handleChordButton` embed the standard playstyles of
  `playstyles.cpp`;
* `getBaseMidiNote` embeds the prioritized-note resolver of `audio.cpp`;
* `getChordNotes` embeds the chord table lookup of `chords.cpp`;
* `playstyleDispatch` embeds the mode-selection logic of `loop()` in `main.ino`.

Modelling conventions: C `unsigned long` microsecond timestamps become `Nat`
(no wraparound; C subtraction of timestamps becomes truncated subtraction),
C `float`/`double` quantities become `Rat` (exact arithmetic in place of
floating rounding), a C cast `(unsigned long)x` of a non-negative float
becomes `ulong` (floor), and C truncating integer division/remainder become
`Int.tdiv`/`Int.tmod`.  Calls into the audio collaborator (`playNote`,
`stopNote`) and the MIDI transport (`sendMidiNoteOn`, `sendMidiNoteOff`,
all-notes-off) are externalized as an emitted event trace.  State fields that
are only ever written, never read, by the embedded code paths (debug buffers,
voice frequencies) are omitted.
-/

namespace SnesSynth

/-- Number of note buttons (button_defs.h / synth_state.h). -/
def MAX_NOTE_BUTTONS : Nat := 10

/-- Capacity of the recent-press ring buffer (synth_state.h). -/
def LAST_PRESS_BUFFER_SIZE : Nat := 8

/-- Number of clock ticks sampled before locking the tempo (synth_state.h). -/
def NUM_SAMPLES_FOR_LOCK : Nat := 24

/-- Mapping profile: standard scale (synth_state.h). -/
def PROFILE_SCALE : Nat := 0

/-- Mapping profile: Thunderstruck intro (synth_state.h). -/
def PROFILE_THUNDERSTRUCK : Nat := 1

/-- Index of the L modifier button (button_defs.h). -/
def BTN_L : Nat := 10

/-- Index of the R modifier button (button_defs.h). -/
def BTN_R : Nat := 11

/-- Play styles (synth_state.h). -/
inductive PlayStyle where
  | monophonic
  | polyphonic
  | chordButton
  deriving DecidableEq, Repr

/-- Events sent to the external collaborators: the MIDI transport
(`sendMidiNoteOn` / `sendMidiNoteOff` / control change 123) and the audio
voice engine (`playNote` / `stopNote`). -/
inductive Ev where
  | midiOn (note : Int)
  | midiOff (note : Int)
  | play (voice : Nat) (note : Int)
  | stopVoice (voice : Nat)
  | allNotesOff
  deriving DecidableEq, Repr

/-- The shared performance-state record (synth_state.h), restricted to the
fields read or written by the embedded code paths. -/
structure SynthState where
  held : Nat → Bool
  pressed : Nat → Bool
  released : Nat → Bool
  lastPressedBuffer : List Int
  lastPressedIndex : Nat
  baseNote : Int
  keyOffset : Int
  scaleMode : Int
  scaleHolder : Nat → Int
  playStyle : PlayStyle
  chordProfile : Nat
  portamentoEnabled : Bool
  customProfileIndex : Nat
  pitchBend : Int
  prevPitchBend : Int
  currentMidiNote : Int
  currentButton : Int
  currentChordNotes : List Int
  arpeggioOffset : Int
  commandJustExecuted : Bool
  midiSyncEnabled : Bool
  tempoEstablished : Bool
  boogieModeEnabled : Bool
  rhythmicModeEnabled : Bool
  lastTickTimeMicros : Nat
  beatStartTimeMicros : Nat
  boogieTriggerButton : Int
  boogieCurrentSlotIndex : Int
  boogieNoteStartTimeMicros : Nat
  boogieNoteStopTimeMicros : Nat
  boogieCurrentMidiNote : Int
  usPerMidiTick : Rat
  lastMidiClockTime : Nat
  boogieLActive : Bool
  boogieRActive : Bool
  tickIntervalBuffer : List Rat
  tickBufferIndex : Nat
  tickBufferFilled : Bool
  isSamplingTempo : Bool
  sampleTickCount : Nat
  lockedUsPerMidiTick : Rat
  samplingIntervalSum : Rat
  swingAmount : Rat
  prevMidiSyncEnabled : Bool
  boogieInternalBeatStartTimeMicros : Nat

/-- The C cast `(unsigned long)x` applied to a non-negative float quantity:
truncation toward zero, i.e. the floor for non-negative values. -/
def ulong (q : Rat) : Nat := q.num.toNat / q.den

/-- The repeated C clamping pattern
`if (x < 0) x = 0; if (x > 127) x = 127;` applied to a MIDI note number. -/
def clamp0to127 (n : Int) : Int :=
  let a := if n < 0 then 0 else n
  if a > 127 then 127 else a

/-- Physical button index to musical position permutation (playstyles.cpp). -/
def buttonToMusicalPosition : Nat → Int
  | 0 => 7
  | 1 => 6
  | 2 => 4
  | 3 => 5
  | 4 => 2
  | 5 => 0
  | 6 => 1
  | 7 => 3
  | 8 => 9
  | 9 => 8
  | _ => 0

/-- Static per-button note table for the Thunderstruck profile
(playstyles.cpp). -/
def thunderstruckMidiNotes : Nat → Int
  | 0 => 79
  | 1 => 78
  | 2 => 75
  | 3 => 76
  | 4 => 71
  | 5 => 71
  | 6 => 71
  | 7 => 71
  | 8 => 81
  | 9 => 80
  | _ => 0

/-- The MIDI clock handler `handleClock()` of main.ino.  `nowMicros` is the
value of `micros()` and `nowMillis` the value of `millis()` at the callback.
During the sampling phase a delta is accumulated only when a previous tick
time strictly after the Start anchor exists and the delta passes the basic
validation `0 < delta < 2000000`; on the `NUM_SAMPLES_FOR_LOCK`-th valid
sample the average is locked in. -/
def handleClock (nowMicros nowMillis : Nat) (s : SynthState) : SynthState :=
  let previousTickTimeMicros := s.lastTickTimeMicros
  let s1 := { s with lastTickTimeMicros := nowMicros,
                     midiSyncEnabled := true,
                     lastMidiClockTime := nowMillis }
  if s1.isSamplingTempo then
    if previousTickTimeMicros > s1.beatStartTimeMicros then
      let deltaMicros : Nat := nowMicros - previousTickTimeMicros
      if deltaMicros > 0 ∧ deltaMicros < 2000000 then
        let sum := s1.samplingIntervalSum + (deltaMicros : Rat)
        let cnt := s1.sampleTickCount + 1
        let s2 := { s1 with samplingIntervalSum := sum, sampleTickCount := cnt }
        if cnt ≥ NUM_SAMPLES_FOR_LOCK then
          let averageInterval : Rat := if cnt > 0 then sum / (cnt : Rat) else 0
          if averageInterval > 0 then
            { s2 with usPerMidiTick := averageInterval,
                      lockedUsPerMidiTick := averageInterval,
                      tempoEstablished := true,
                      isSamplingTempo := false }
          else
            { s2 with tempoEstablished := false, isSamplingTempo := false }
        else s2
      else s1
    else s1
  else s1

/-- The MIDI Start handler `handleStart()` of main.ino: anchors the sampling
window, clears the tempo, resets the sampling accumulators and the Boogie
sequence state. -/
def handleStart (nowMicros nowMillis : Nat) (s : SynthState) : SynthState :=
  { s with beatStartTimeMicros := nowMicros,
           lastTickTimeMicros := nowMicros,
           midiSyncEnabled := true,
           tempoEstablished := false,
           usPerMidiTick := 0,
           lockedUsPerMidiTick := 0,
           isSamplingTempo := true,
           sampleTickCount := 0,
           samplingIntervalSum := 0,
           tickBufferIndex := 0,
           tickIntervalBuffer := List.replicate LAST_PRESS_BUFFER_SIZE 0,
           tickBufferFilled := false,
           boogieTriggerButton := -1,
           boogieCurrentMidiNote := -1,
           boogieCurrentSlotIndex := -1,
           boogieNoteStartTimeMicros := 0,
           boogieNoteStopTimeMicros := 0,
           boogieInternalBeatStartTimeMicros := 0,
           lastMidiClockTime := nowMillis }

/-- The MIDI Stop handler `handleStop()` of main.ino: the clock-present flag
goes false while the locked tempo is kept; an active Boogie note is stopped
immediately. -/
def handleStop (s : SynthState) : SynthState × List Ev :=
  let s1 := { s with midiSyncEnabled := false,
                     isSamplingTempo := false,
                     sampleTickCount := 0,
                     tickBufferFilled := false,
                     tickBufferIndex := 0 }
  if s1.boogieModeEnabled ∧ s1.boogieCurrentMidiNote ≠ -1 then
    ({ s1 with boogieCurrentMidiNote := -1,
               boogieTriggerButton := -1,
               boogieCurrentSlotIndex := -1,
               boogieInternalBeatStartTimeMicros := 0,
               boogieNoteStartTimeMicros := 0,
               boogieNoteStopTimeMicros := 0 },
     [Ev.midiOff s1.boogieCurrentMidiNote, Ev.stopVoice 0])
  else (s1, [])

/-- The input-scanning loop at the top of `handleMonophonic` (playstyles.cpp):
one ascending pass over the note buttons computing the triple
(newlyPressedButton, releasedButton, highestPriorityHeldButton).  The pressed
check does not break, so a later pressed index overwrites an earlier one; the
released check fires only for the currently playing button; the held check
keeps the first held index. -/
def monoScanLoop (s : SynthState) : Nat → Nat → Int × Int × Int → Int × Int × Int
  | _, 0, acc => acc
  | i, fuel+1, acc =>
    let np := if s.pressed i then (i : Int) else acc.1
    let rb := if s.released i ∧ (i : Int) = s.currentButton then (i : Int) else acc.2.1
    let hp := if s.held i ∧ acc.2.2 = -1 then (i : Int) else acc.2.2
    monoScanLoop s (i+1) fuel (np, rb, hp)

/-- The scan results of `handleMonophonic` including the special check that
turns a fresh L press into the selected press under the Thunderstruck
profile. -/
def monoInputs (s : SynthState) : Int × Int × Int :=
  let t := monoScanLoop s 0 MAX_NOTE_BUTTONS (-1, -1, -1)
  if t.1 = -1 ∧ s.customProfileIndex = PROFILE_THUNDERSTRUCK ∧ s.pressed BTN_L then
    ((BTN_L : Int), t.2.1, if t.2.2 = -1 then (BTN_L : Int) else t.2.2)
  else t

/-- The pitch-bend determination of `handleMonophonic`: L bends down an
octave, R up an octave, both cancel; under Thunderstruck only R acts. -/
def monoCurrentPitchBend (s : SynthState) : Int :=
  if s.customProfileIndex ≠ PROFILE_THUNDERSTRUCK then
    if s.held BTN_L ∧ s.held BTN_R then 0
    else if s.held BTN_L then -12
    else if s.held BTN_R then 12
    else 0
  else
    if s.held BTN_R then 12 else 0

/-- Base-note lookup used by the press and pitch-bend-change paths of
`handleMonophonic`, including the Thunderstruck special case mapping the L
button to note 71. -/
def monoBaseNoteWithLCase (s : SynthState) (btn : Int) : Int :=
  if s.customProfileIndex = PROFILE_THUNDERSTRUCK then
    if btn = (BTN_L : Int) then 71
    else if btn < (MAX_NOTE_BUTTONS : Int) then thunderstruckMidiNotes btn.toNat
    else -1
  else
    if btn < (MAX_NOTE_BUTTONS : Int) then
      let musicalPosition := buttonToMusicalPosition btn.toNat
      if musicalPosition ≥ 0 ∧ musicalPosition < 12 then s.scaleHolder musicalPosition.toNat
      else -1
    else -1

/-- Base-note lookup used by the release-retrigger path of
`handleMonophonic` (no L special case there). -/
def monoBaseNotePlain (s : SynthState) (btn : Int) : Int :=
  if s.customProfileIndex = PROFILE_THUNDERSTRUCK then
    if btn < (MAX_NOTE_BUTTONS : Int) then thunderstruckMidiNotes btn.toNat
    else -1
  else
    if btn < (MAX_NOTE_BUTTONS : Int) then
      let musicalPosition := buttonToMusicalPosition btn.toNat
      if musicalPosition ≥ 0 ∧ musicalPosition < 12 then s.scaleHolder musicalPosition.toNat
      else -1
    else -1

/-- Ascending scan with break: the first button index in `[i, i+fuel)` that is
held and differs from `skip`.  This is the retrigger scan of
`handleMonophonic` and the lowest-index fallback scan of
`handleChordButton`. -/
def firstHeldExceptFrom (s : SynthState) (skip : Int) : Nat → Nat → Int
  | _, 0 => -1
  | i, fuel+1 =>
    if (i : Int) ≠ skip ∧ s.held i then (i : Int)
    else firstHeldExceptFrom s skip (i+1) fuel

/-- The Monophonic playstyle handler `handleMonophonic` (playstyles.cpp,
V3 revert + fixes).  Returns the updated state and the trace of MIDI/audio
events emitted during the poll. -/
def handleMonophonic (s : SynthState) : SynthState × List Ev :=
  let inputs := monoInputs s
  let newlyPressedButton := inputs.1
  let releasedButton := inputs.2.1
  let currentPitchBend := monoCurrentPitchBend s
  let pitchBendChanged := currentPitchBend ≠ s.prevPitchBend
  if newlyPressedButton ≠ -1 then
    let offEvs :=
      if s.currentMidiNote ≠ -1 ∧ s.currentButton ≠ newlyPressedButton then
        [Ev.midiOff s.currentMidiNote]
      else []
    let baseMidiNote := monoBaseNoteWithLCase s newlyPressedButton
    if baseMidiNote ≠ -1 then
      let finalMidiNote := clamp0to127 (baseMidiNote + currentPitchBend)
      ({ s with currentMidiNote := finalMidiNote,
                currentButton := newlyPressedButton,
                prevPitchBend := currentPitchBend },
       offEvs ++ [Ev.play 0 finalMidiNote, Ev.midiOn finalMidiNote])
    else
      let offEvs2 := if s.currentMidiNote ≠ -1 then [Ev.midiOff s.currentMidiNote] else []
      ({ s with currentMidiNote := -1, currentButton := -1,
                prevPitchBend := currentPitchBend },
       offEvs ++ offEvs2 ++ [Ev.stopVoice 0])
  else if releasedButton ≠ -1 then
    let buttonToRetrigger := firstHeldExceptFrom s releasedButton 0 MAX_NOTE_BUTTONS
    if buttonToRetrigger ≠ -1 then
      let offEvs := if s.currentMidiNote ≠ -1 then [Ev.midiOff s.currentMidiNote] else []
      let baseMidiNote := monoBaseNotePlain s buttonToRetrigger
      if baseMidiNote ≠ -1 then
        let finalMidiNote := clamp0to127 (baseMidiNote + currentPitchBend)
        ({ s with currentMidiNote := finalMidiNote,
                  currentButton := buttonToRetrigger,
                  prevPitchBend := currentPitchBend },
         offEvs ++ [Ev.play 0 finalMidiNote, Ev.midiOn finalMidiNote])
      else
        ({ s with currentMidiNote := -1, currentButton := -1,
                  prevPitchBend := currentPitchBend },
         offEvs ++ [Ev.stopVoice 0])
    else
      let offEvs := if s.currentMidiNote ≠ -1 then [Ev.midiOff s.currentMidiNote] else []
      ({ s with currentMidiNote := -1, currentButton := -1,
                prevPitchBend := currentPitchBend },
       offEvs ++ [Ev.stopVoice 0])
  else if pitchBendChanged ∧ s.currentButton ≠ -1 then
    let baseMidiNote := monoBaseNoteWithLCase s s.currentButton
    if baseMidiNote ≠ -1 then
      let finalMidiNote := clamp0to127 (baseMidiNote + currentPitchBend)
      let offEvs :=
        if s.currentMidiNote ≠ -1 ∧ s.currentMidiNote ≠ finalMidiNote then
          [Ev.midiOff s.currentMidiNote]
        else []
      let onEvs :=
        if s.currentMidiNote = -1 ∨ s.currentMidiNote ≠ finalMidiNote then
          [Ev.midiOn finalMidiNote]
        else []
      ({ s with currentMidiNote := finalMidiNote, prevPitchBend := currentPitchBend },
       offEvs ++ [Ev.play 0 finalMidiNote] ++ onEvs)
    else ({ s with prevPitchBend := currentPitchBend }, [])
  else ({ s with prevPitchBend := currentPitchBend }, [])

/-- The ring-buffer scan of `getBaseMidiNote` (audio.cpp, V12.1): walk the
recent-press buffer newest-first and return the first entry that is a valid
note-button index and still held; `-1` if none is found within
`LAST_PRESS_BUFFER_SIZE` steps. -/
def scanBufferHeldFrom (s : SynthState) : Nat → Nat → Int
  | _, 0 => -1
  | readIndex, fuel+1 =>
    let ri := (readIndex + LAST_PRESS_BUFFER_SIZE - 1) % LAST_PRESS_BUFFER_SIZE
    let bufferedButton := s.lastPressedBuffer.getD ri (-1)
    if bufferedButton ≥ 0 ∧ bufferedButton < (MAX_NOTE_BUTTONS : Int) ∧
       s.held bufferedButton.toNat then
      bufferedButton
    else scanBufferHeldFrom s ri fuel

/-- The prioritized-note resolver `getBaseMidiNote` (audio.cpp, V12.1): the
most recent still-held note button from the press buffer, resolved through
the active mapping profile; `-1` when the buffer scan finds nothing (there is
no fallback tier). -/
def getBaseMidiNote (s : SynthState) : Int :=
  let buttonToPlay := scanBufferHeldFrom s s.lastPressedIndex LAST_PRESS_BUFFER_SIZE
  if buttonToPlay = -1 then -1
  else if s.customProfileIndex = PROFILE_THUNDERSTRUCK then
    if buttonToPlay ≥ 0 ∧ buttonToPlay < (MAX_NOTE_BUTTONS : Int) then
      thunderstruckMidiNotes buttonToPlay.toNat
    else -1
  else
    if buttonToPlay ≥ 0 ∧ buttonToPlay < (MAX_NOTE_BUTTONS : Int) then
      let musicalPosition := buttonToMusicalPosition buttonToPlay.toNat
      if musicalPosition ≥ 0 ∧ musicalPosition < 12 then
        s.scaleHolder musicalPosition.toNat
      else -1
    else -1

/-- Ascending scan with break over the note buttons: first pressed index, as
used by `handleChordButton` and `handleBoogieTiming`. -/
def firstPressedFrom (s : SynthState) : Nat → Nat → Int
  | _, 0 => -1
  | i, fuel+1 => if s.pressed i then (i : Int) else firstPressedFrom s (i+1) fuel

/-- The ring-buffer scan of the chord retrigger logic (playstyles.cpp):
newest-first, requiring a valid, still-held note button different from the
currently sounding one. -/
def chordScanBufferFrom (s : SynthState) : Nat → Nat → Int
  | _, 0 => -1
  | readIndex, fuel+1 =>
    let ri := (readIndex + LAST_PRESS_BUFFER_SIZE - 1) % LAST_PRESS_BUFFER_SIZE
    let bufferedButton := s.lastPressedBuffer.getD ri (-1)
    if bufferedButton ≥ 0 ∧ bufferedButton < (MAX_NOTE_BUTTONS : Int) ∧
       s.held bufferedButton.toNat ∧ bufferedButton ≠ s.currentButton then
      bufferedButton
    else chordScanBufferFrom s ri fuel

/-- Number of scales (synth.h). -/
def NUM_SCALES : Nat := 7

/-- Scale interval tables (synth.cpp); rows are zero-filled to 10 entries
past the -1 terminator exactly as C aggregate initialization does. -/
def SCALE_DEFINITIONS : List (List Int) :=
  [[0, 2, 4, 5, 7, 9, 11, -1, 0, 0],
   [0, 2, 3, 5, 7, 8, 10, -1, 0, 0],
   [0, 2, 3, 5, 7, 8, 11, -1, 0, 0],
   [0, 2, 3, 5, 7, 9, 11, -1, 0, 0],
   [0, 2, 4, 6, 7, 9, 11, -1, 0, 0],
   [0, 2, 4, 5, 7, 9, 10, -1, 0, 0],
   [0, 2, 3, 5, 7, 8, 10, -1, 0, 0]]

/-- Chord definitions by profile, scale degree and chord voice
(chords.cpp). -/
def CHORD_DEFINITIONS : List (List (List Int)) :=
  [List.replicate 10 [1, 3, 5, 8],
   [[1, 3, 5, 8], [-2, 1, 3, 5]] ++ List.replicate 8 [1, 3, 5, 8]]

/-- The scale-length determination of `getChordNotes`: index of the first -1
terminator within the first 10 entries, 0 when no terminator is found. -/
def scaleLengthOf (intervals : List Int) : Nat :=
  ((List.range 10).find? (fun i => intervals.getD i 0 = -1)).getD 0

/-- The per-voice loop of `getChordNotes` (chords.cpp): for each chord-degree
entry until a 0 terminator or 4 voices, compute the MIDI note from the scale
intervals with C truncating division/remainder and the negative-degree
octave adjustment. -/
def chordNoteLoop (s : SynthState) (intervals : List Int) (scaleLength : Int)
    (scaleDegree : Int) (chordDef : List Int) : Nat → Nat → List Int
  | _, 0 => []
  | i, fuel+1 =>
    let degree := chordDef.getD i 0
    if degree = 0 then []
    else
      let adjustedDegree := (scaleDegree - 1) + (degree - 1)
      let degreeOctaveOffset0 := (Int.tdiv adjustedDegree scaleLength) * 12
      let degreeIndex0 := Int.tmod adjustedDegree scaleLength
      let degreeIndex := if degreeIndex0 < 0 then degreeIndex0 + scaleLength else degreeIndex0
      let degreeOctaveOffset :=
        if degreeIndex0 < 0 then degreeOctaveOffset0 - 12 else degreeOctaveOffset0
      let midiNote := s.baseNote + intervals.getD degreeIndex.toNat 0 + degreeOctaveOffset +
                      s.keyOffset + s.arpeggioOffset
      midiNote :: chordNoteLoop s intervals scaleLength scaleDegree chordDef (i+1) fuel

/-- The chord-table lookup `getChordNotes` (chords.cpp), returning the list
of up to 4 chord notes for a 1-based scale degree.  The root-note computation
of the C function is dead code (its result is unused) and is omitted. -/
def getChordNotes (s : SynthState) (scaleDegree : Int) : List Int :=
  let scaleIndex : Nat :=
    if s.scaleMode ≥ 0 ∧ s.scaleMode < (NUM_SCALES : Int) then s.scaleMode.toNat else 0
  let intervals := SCALE_DEFINITIONS.getD scaleIndex []
  let scaleLength := scaleLengthOf intervals
  let chordDef := (CHORD_DEFINITIONS.getD s.chordProfile []).getD (scaleDegree - 1).toNat []
  chordNoteLoop s intervals (scaleLength : Int) scaleDegree chordDef 0 4

/-- The stop-chord loop of `handleChordButton`: per voice in `[i, i+fuel)`,
an active note is stopped (audio voice first, then MIDI note-off) and its
slot cleared. -/
def chordStopLoop : List Int → Nat → Nat → List Ev × List Int
  | notes, _, 0 => ([], notes)
  | notes, i, fuel+1 =>
    let n := notes.getD i (-1)
    if n ≠ -1 then
      let rest := chordStopLoop (notes.set i (-1)) (i+1) fuel
      (Ev.stopVoice i :: Ev.midiOff n :: rest.1, rest.2)
    else
      let rest := chordStopLoop notes (i+1) fuel
      (rest.1, rest.2)

/-- The voice-preparation loop of `handleChordButton` before a new or changed
chord: MIDI note-offs always, audio voices stopped and slots cleared only
when portamento is off. -/
def chordPrepLoop (porta : Bool) : List Int → Nat → Nat → List Ev × List Int
  | notes, _, 0 => ([], notes)
  | notes, i, fuel+1 =>
    let n := notes.getD i (-1)
    if n ≠ -1 then
      if porta then
        let rest := chordPrepLoop porta notes (i+1) fuel
        (Ev.midiOff n :: rest.1, rest.2)
      else
        let rest := chordPrepLoop porta (notes.set i (-1)) (i+1) fuel
        (Ev.midiOff n :: Ev.stopVoice i :: rest.1, rest.2)
    else
      let rest := chordPrepLoop porta notes (i+1) fuel
      (rest.1, rest.2)

/-- The play loop of `handleChordButton`: each chord voice is pitch-bent,
clamped to [0,127], played and recorded. -/
def chordPlayLoop (bend : Int) (chordNotes : List Int) : List Int → Nat → Nat → List Ev × List Int
  | notes, _, 0 => ([], notes)
  | notes, i, fuel+1 =>
    let c := chordNotes.getD i (-1)
    if c ≠ -1 then
      let f := clamp0to127 (c + bend)
      let rest := chordPlayLoop bend chordNotes (notes.set i f) (i+1) fuel
      (Ev.play i f :: Ev.midiOn f :: rest.1, rest.2)
    else
      let rest := chordPlayLoop bend chordNotes notes (i+1) fuel
      (rest.1, rest.2)

/-- The ChordButton playstyle handler `handleChordButton` (playstyles.cpp). -/
def handleChordButton (s : SynthState) : SynthState × List Ev :=
  let currentLState := s.held BTN_L
  let currentRState := s.held BTN_R
  let newPitchBend : Int :=
    if currentLState ∧ currentRState then 0
    else if currentLState then -12
    else if currentRState then 12
    else 0
  let newlyPressedButton := firstPressedFrom s 0 10
  let currentButtonReleased := s.currentButton ≠ -1 ∧ s.released s.currentButton.toNat
  let pitchBendChanged := s.currentButton ≠ -1 ∧ newPitchBend ≠ s.prevPitchBend
  -- determine next action
  let action : Bool × Bool × Int :=
    if newlyPressedButton ≠ -1 then (false, true, newlyPressedButton)
    else if currentButtonReleased then
      let lastHeldButtonInBuffer := chordScanBufferFrom s s.lastPressedIndex LAST_PRESS_BUFFER_SIZE
      if lastHeldButtonInBuffer ≠ -1 then (false, true, lastHeldButtonInBuffer)
      else
        let lowestFallbackHeld := firstHeldExceptFrom s s.currentButton 0 MAX_NOTE_BUTTONS
        if lowestFallbackHeld ≠ -1 then (false, true, lowestFallbackHeld)
        else (true, false, s.currentButton)
    else if pitchBendChanged then (false, true, s.currentButton)
    else
      let anyNoteHeld := (List.range 10).any (fun i => s.held i)
      if ¬anyNoteHeld ∧ s.currentButton ≠ -1 then (true, false, s.currentButton)
      else (false, false, s.currentButton)
  let shouldStopNotes := action.1
  let triggerNewChord := action.2.1
  let buttonToPlay := action.2.2
  if shouldStopNotes then
    if s.currentButton ≠ -1 then
      let stopped := chordStopLoop s.currentChordNotes 0 4
      let notesWerePlaying := s.currentChordNotes.any (fun n => n ≠ -1)
      let evs := stopped.1 ++ (if notesWerePlaying then [Ev.allNotesOff] else [])
      ({ s with currentChordNotes := stopped.2, currentButton := -1,
                pitchBend := newPitchBend, prevPitchBend := newPitchBend }, evs)
    else
      ({ s with pitchBend := newPitchBend, prevPitchBend := newPitchBend }, [])
  else if triggerNewChord ∧ buttonToPlay ≠ -1 then
    let isNewButton := newlyPressedButton ≠ -1 ∧ newlyPressedButton ≠ s.currentButton
    let prep :=
      if s.currentButton ≠ -1 ∧ (isNewButton ∨ pitchBendChanged) then
        chordPrepLoop s.portamentoEnabled s.currentChordNotes 0 4
      else ([], s.currentChordNotes)
    let musicalPosition := buttonToMusicalPosition buttonToPlay.toNat
    let chordNotes := getChordNotes s (musicalPosition + 1)
    let numNotes := chordNotes.length
    let played := chordPlayLoop newPitchBend chordNotes prep.2 0 numNotes
    let unused := chordStopLoop played.2 numNotes (4 - numNotes)
    ({ s with currentButton := buttonToPlay, currentChordNotes := unused.2,
              pitchBend := newPitchBend, prevPitchBend := newPitchBend },
     prep.1 ++ played.1 ++ unused.1)
  else
    ({ s with pitchBend := newPitchBend, prevPitchBend := newPitchBend }, [])

/-- Placeholder Polyphonic playstyle (playstyles.cpp): not implemented. -/
def handlePolyphonic (s : SynthState) : SynthState × List Ev := (s, [])

/-- The C cast `(int)x` of a float quantity: truncation toward zero. -/
def truncInt (q : Rat) : Int := Int.tdiv q.num (q.den : Int)

/-- The swing-mode slot timing block of `handleBoogieTiming` (duplicated
verbatim in the source at the note-on check and at the play block): relative
start and stop offsets of the two eighth-note slots within a beat, as a tuple
(slot0StartTimeRel, slot1StartTimeRel, slot0StopTimeRel, slot1StopTimeRel). -/
def swingSlotRels (quarterNoteDurationMicros swingAmount : Rat) : Nat × Nat × Nat × Nat :=
  let eighthNoteNominalDuration := quarterNoteDurationMicros / 2
  let swingDelayMicros := swingAmount * (quarterNoteDurationMicros / 6)
  let slot0StartTimeRel : Nat := 0
  let slot1StartTimeRel : Nat := ulong (eighthNoteNominalDuration + swingDelayMicros)
  let note0IntendedDuration : Nat := ulong (eighthNoteNominalDuration * (1/2))
  let note1IntendedDuration : Nat := ulong (eighthNoteNominalDuration * (1/2))
  let slot0StopTimeRel := min note0IntendedDuration slot1StartTimeRel
  let slot1StopTimeRel :=
    min (slot1StartTimeRel + note1IntendedDuration) (ulong quarterNoteDurationMicros)
  (slot0StartTimeRel, slot1StartTimeRel, slot0StopTimeRel, slot1StopTimeRel)

/-- Triplet-mode section of `handleBoogieTiming` (both modifiers held): the
note-off check (a note with slot index 0..2 is stopped at its start plus half
a triplet duration; any other lingering note is stopped immediately) followed
by the note-on window check.  Returns updated state, events and the target
slot (-1 when no note-on is due). -/
def boogieTripletPhase (nowMicros currentBeatRefTimeMicros : Nat)
    (quarterNoteDurationMicros : Rat) (elapsedInCurrentBeat : Nat)
    (s : SynthState) : SynthState × List Ev × Int :=
  let tripletDurationMicros := quarterNoteDurationMicros / 3
  let tripletNoteDuration : Nat := ulong (tripletDurationMicros * (1/2))
  let cts0 : Int := truncInt ((elapsedInCurrentBeat : Rat) / tripletDurationMicros)
  let cts1 : Int := if cts0 < 0 then 0 else cts0
  let currentTripletSlot : Int := if cts1 > 2 then 2 else cts1
  let tripletAbsStartTime : Nat :=
    currentBeatRefTimeMicros + ulong ((currentTripletSlot : Rat) * tripletDurationMicros)
  let tripletAbsStopTime := tripletAbsStartTime + tripletNoteDuration
  let off : SynthState × List Ev :=
    if s.boogieCurrentMidiNote ≠ -1 then
      if s.boogieCurrentSlotIndex ≥ 0 ∧ s.boogieCurrentSlotIndex ≤ 2 then
        let playingTripletDuration := quarterNoteDurationMicros / 3
        let playingNoteDuration : Nat := ulong (playingTripletDuration * (1/2))
        let playingTripletAbsStartTime := s.boogieNoteStartTimeMicros
        let playingTripletAbsStopTime := playingTripletAbsStartTime + playingNoteDuration
        if nowMicros ≥ playingTripletAbsStopTime then
          ({ s with boogieCurrentMidiNote := -1, boogieCurrentSlotIndex := -1 },
           [Ev.midiOff s.boogieCurrentMidiNote, Ev.stopVoice 0])
        else (s, [])
      else
        ({ s with boogieCurrentMidiNote := -1, boogieCurrentSlotIndex := -1 },
         [Ev.midiOff s.boogieCurrentMidiNote, Ev.stopVoice 0])
    else (s, [])
  let s1 := off.1
  let targetSlot : Int :=
    if s1.boogieCurrentMidiNote = -1 then
      if nowMicros ≥ tripletAbsStartTime ∧ nowMicros < tripletAbsStopTime then
        currentTripletSlot
      else -1
    else -1
  (s1, off.2, targetSlot)

/-- Swing-mode section of `handleBoogieTiming`: immediate mute-press stops,
the scheduled note-off check, then the note-on window check for the two
eighth-note slots.  Returns updated state, events and the target slot. -/
def boogieSwingPhase (nowMicros currentBeatRefTimeMicros : Nat)
    (quarterNoteDurationMicros : Rat) (s : SynthState) : SynthState × List Ev × Int :=
  let rels := swingSlotRels quarterNoteDurationMicros s.swingAmount
  let slot0StartTimeRel := rels.1
  let slot1StartTimeRel := rels.2.1
  let slot0StopTimeRel := rels.2.2.1
  let slot1StopTimeRel := rels.2.2.2
  let mute : SynthState × List Ev :=
    if s.boogieCurrentMidiNote ≠ -1 then
      if s.pressed BTN_L ∧ s.boogieCurrentSlotIndex = 0 then
        ({ s with boogieCurrentMidiNote := -1, boogieCurrentSlotIndex := -1 },
         [Ev.midiOff s.boogieCurrentMidiNote, Ev.stopVoice 0])
      else if s.pressed BTN_R ∧ s.boogieCurrentSlotIndex = 1 then
        ({ s with boogieCurrentMidiNote := -1, boogieCurrentSlotIndex := -1 },
         [Ev.midiOff s.boogieCurrentMidiNote, Ev.stopVoice 0])
      else (s, [])
    else (s, [])
  let s1 := mute.1
  let sched : SynthState × List Ev :=
    if s1.boogieCurrentMidiNote ≠ -1 then
      let beatNumPlaying :=
        (s1.boogieNoteStartTimeMicros - currentBeatRefTimeMicros) / ulong quarterNoteDurationMicros
      let currentNoteAbsStopTime :=
        currentBeatRefTimeMicros + beatNumPlaying * ulong quarterNoteDurationMicros +
          (if s1.boogieCurrentSlotIndex = 0 then slot0StopTimeRel else slot1StopTimeRel)
      if nowMicros ≥ currentNoteAbsStopTime then
        ({ s1 with boogieCurrentMidiNote := -1, boogieCurrentSlotIndex := -1 },
         [Ev.midiOff s1.boogieCurrentMidiNote, Ev.stopVoice 0])
      else (s1, [])
    else (s1, [])
  let s2 := sched.1
  let targetSlot : Int :=
    if s2.boogieCurrentMidiNote = -1 then
      let muteSlot0 := s2.held BTN_L
      let muteSlot1 := s2.held BTN_R
      let beatNumCurrent := (nowMicros - currentBeatRefTimeMicros) / ulong quarterNoteDurationMicros
      let slot0AbsStart :=
        currentBeatRefTimeMicros + slot0StartTimeRel + beatNumCurrent * ulong quarterNoteDurationMicros
      let slot0AbsStop :=
        currentBeatRefTimeMicros + slot0StopTimeRel + beatNumCurrent * ulong quarterNoteDurationMicros
      let slot1AbsStart :=
        currentBeatRefTimeMicros + slot1StartTimeRel + beatNumCurrent * ulong quarterNoteDurationMicros
      let slot1AbsStop :=
        currentBeatRefTimeMicros + slot1StopTimeRel + beatNumCurrent * ulong quarterNoteDurationMicros
      if ¬muteSlot0 ∧ nowMicros ≥ slot0AbsStart ∧ nowMicros < slot0AbsStop then 0
      else if ¬muteSlot1 ∧ nowMicros ≥ slot1AbsStart ∧ nowMicros < slot1AbsStop then 1
      else -1
    else -1
  (s2, mute.2 ++ sched.2, targetSlot)

/-- Final section of `handleBoogieTiming`: if a target slot was determined,
compute the absolute start/stop times for that slot (triplet timings when
both modifiers are held, swing timings otherwise), play the prioritized note
transposed down two octaves and clamped, and record the note bookkeeping. -/
def boogiePlayPhase (nowMicros currentBeatRefTimeMicros : Nat)
    (quarterNoteDurationMicros : Rat) (prioritizedBaseMidiNote : Int)
    (targetSlot : Int) (s : SynthState) : SynthState × List Ev :=
  if targetSlot ≠ -1 then
    let targetNote := clamp0to127 (prioritizedBaseMidiNote - 24)
    let beatNumCurrent := (nowMicros - currentBeatRefTimeMicros) / ulong quarterNoteDurationMicros
    if s.held BTN_L ∧ s.held BTN_R then
      let tripletDurationMicros := quarterNoteDurationMicros / 3
      let tripletNoteDuration : Nat := ulong (tripletDurationMicros * (1/2))
      let targetAbsStartTime :=
        currentBeatRefTimeMicros + beatNumCurrent * ulong quarterNoteDurationMicros +
          ulong ((targetSlot : Rat) * tripletDurationMicros)
      let targetAbsStopTime := targetAbsStartTime + tripletNoteDuration
      ({ s with boogieNoteStartTimeMicros := targetAbsStartTime,
                boogieCurrentMidiNote := targetNote,
                boogieCurrentSlotIndex := targetSlot,
                boogieNoteStopTimeMicros := targetAbsStopTime },
       [Ev.play 0 targetNote, Ev.midiOn targetNote])
    else
      let rels := swingSlotRels quarterNoteDurationMicros s.swingAmount
      let targetAbsStartTime :=
        currentBeatRefTimeMicros + beatNumCurrent * ulong quarterNoteDurationMicros +
          (if targetSlot = 0 then rels.1 else rels.2.1)
      let targetAbsStopTime :=
        currentBeatRefTimeMicros + beatNumCurrent * ulong quarterNoteDurationMicros +
          (if targetSlot = 0 then rels.2.2.1 else rels.2.2.2)
      ({ s with boogieNoteStartTimeMicros := targetAbsStartTime,
                boogieCurrentMidiNote := targetNote,
                boogieCurrentSlotIndex := targetSlot,
                boogieNoteStopTimeMicros := targetAbsStopTime },
       [Ev.play 0 targetNote, Ev.midiOn targetNote])
  else (s, [])

/-- The clock state transition block of `handleBoogieTiming`: on a clock
stop edge or start edge, stop any sounding note and reset the sequence
bookkeeping. -/
def boogieClockTransitions (s : SynthState) : SynthState × List Ev :=
  let clockJustStopped := s.midiSyncEnabled = false ∧ s.prevMidiSyncEnabled = true
  let clockJustStarted := s.midiSyncEnabled = true ∧ s.prevMidiSyncEnabled = false
  let p1 : SynthState × List Ev :=
    if clockJustStopped then
      ({ s with boogieCurrentMidiNote := -1, boogieTriggerButton := -1,
                boogieCurrentSlotIndex := -1, boogieNoteStopTimeMicros := 0 },
       if s.boogieCurrentMidiNote ≠ -1 then
         [Ev.midiOff s.boogieCurrentMidiNote, Ev.stopVoice 0]
       else [])
    else (s, [])
  let s1 := p1.1
  if clockJustStarted then
    ({ s1 with boogieCurrentMidiNote := -1, boogieTriggerButton := -1,
               boogieCurrentSlotIndex := -1, boogieNoteStopTimeMicros := 0 },
     p1.2 ++ (if s1.boogieCurrentMidiNote ≠ -1 then
         [Ev.midiOff s1.boogieCurrentMidiNote, Ev.stopVoice 0]
       else []))
  else p1

/-- The sequence stop/start trigger block of `handleBoogieTiming`: in
external sync or internal trigger mode, stop the sequence when no
prioritized note remains, or start it on a fresh press; returns the updated
state, events, and the (possibly updated) beat reference time. -/
def boogieSequenceTrigger (nowMicros : Nat)
    (newlyPressedButton prioritizedBaseMidiNote : Int) (beatRef0 : Nat)
    (s : SynthState) : SynthState × List Ev × Nat :=
  if s.midiSyncEnabled then
    if s.boogieTriggerButton ≠ -1 ∧ prioritizedBaseMidiNote = -1 then
      let inner : SynthState × List Ev :=
        if s.boogieCurrentMidiNote ≠ -1 then
          ({ s with boogieCurrentMidiNote := -1, boogieCurrentSlotIndex := -1,
                    boogieTriggerButton := -1 },
           [Ev.midiOff s.boogieCurrentMidiNote, Ev.stopVoice 0])
        else ({ s with boogieTriggerButton := -1 }, [])
      (inner.1, inner.2, beatRef0)
    else if s.boogieTriggerButton = -1 ∧ newlyPressedButton ≠ -1 ∧
            prioritizedBaseMidiNote ≠ -1 then
      ({ s with boogieTriggerButton := newlyPressedButton }, [], beatRef0)
    else (s, [], beatRef0)
  else
    if s.boogieTriggerButton ≠ -1 ∧ prioritizedBaseMidiNote = -1 then
      let inner : SynthState × List Ev :=
        if s.boogieCurrentMidiNote ≠ -1 then
          ({ s with boogieCurrentMidiNote := -1, boogieCurrentSlotIndex := -1,
                    boogieTriggerButton := -1, boogieInternalBeatStartTimeMicros := 0 },
           [Ev.midiOff s.boogieCurrentMidiNote, Ev.stopVoice 0])
        else ({ s with boogieTriggerButton := -1,
                       boogieInternalBeatStartTimeMicros := 0 }, [])
      (inner.1, inner.2, beatRef0)
    else if s.boogieTriggerButton = -1 ∧ newlyPressedButton ≠ -1 ∧
            prioritizedBaseMidiNote ≠ -1 then
      ({ s with boogieTriggerButton := newlyPressedButton,
                boogieInternalBeatStartTimeMicros := nowMicros }, [], nowMicros)
    else (s, [], beatRef0)

/-- The Boogie beat scheduler `handleBoogieTiming` (playstyles.cpp, V12.7,
L+R triplets).  `nowMicros` is the value of `micros()` at the top of the
call.  Returns the updated state and the emitted event trace. -/
def handleBoogieTiming (nowMicros : Nat) (s : SynthState) : SynthState × List Ev :=
  if s.tempoEstablished = false ∨ s.usPerMidiTick ≤ 0 then
    if s.boogieCurrentMidiNote ≠ -1 then
      ({ s with boogieCurrentMidiNote := -1, boogieTriggerButton := -1,
                boogieCurrentSlotIndex := -1, boogieNoteStopTimeMicros := 0,
                boogieInternalBeatStartTimeMicros := 0 },
       [Ev.midiOff s.boogieCurrentMidiNote, Ev.stopVoice 0])
    else (s, [])
  else
    let p2 := boogieClockTransitions s
    let s2 := p2.1
    let quarterNoteDurationMicros := s2.usPerMidiTick * 24
    if quarterNoteDurationMicros ≤ 0 then (s2, p2.2)
    else
      let newlyPressedButton := firstPressedFrom s2 0 MAX_NOTE_BUTTONS
      let prioritizedBaseMidiNote := getBaseMidiNote s2
      let beatRef0 : Nat :=
        if s2.midiSyncEnabled then s2.beatStartTimeMicros
        else if s2.boogieTriggerButton ≠ -1 then s2.boogieInternalBeatStartTimeMicros
        else 0
      let trig := boogieSequenceTrigger nowMicros newlyPressedButton
        prioritizedBaseMidiNote beatRef0 s2
      let s3 := trig.1
      let evs3 := p2.2 ++ trig.2.1
      let currentBeatRefTimeMicros := trig.2.2
      if s3.boogieTriggerButton = -1 ∨ currentBeatRefTimeMicros = 0 ∨
         prioritizedBaseMidiNote = -1 then
        if s3.boogieCurrentMidiNote ≠ -1 then
          ({ s3 with boogieCurrentMidiNote := -1, boogieCurrentSlotIndex := -1 },
           evs3 ++ [Ev.midiOff s3.boogieCurrentMidiNote, Ev.stopVoice 0])
        else (s3, evs3)
      else
        let elapsedInCurrentBeat :=
          (nowMicros - currentBeatRefTimeMicros) % ulong quarterNoteDurationMicros
        let phase : SynthState × List Ev × Int :=
          if s3.held BTN_L ∧ s3.held BTN_R then
            boogieTripletPhase nowMicros currentBeatRefTimeMicros quarterNoteDurationMicros
              elapsedInCurrentBeat s3
          else
            boogieSwingPhase nowMicros currentBeatRefTimeMicros quarterNoteDurationMicros s3
        let s4 := phase.1
        let evs4 := evs3 ++ phase.2.1
        let targetSlot := phase.2.2
        let fin := boogiePlayPhase nowMicros currentBeatRefTimeMicros quarterNoteDurationMicros
          prioritizedBaseMidiNote targetSlot s4
        (fin.1, evs4 ++ fin.2)

/-- The standard-playstyle dispatcher `runStandardPlaystyles` of main.ino. -/
def runStandardPlaystyles (s : SynthState) : SynthState × List Ev :=
  let s1 := { s with boogieLActive := s.held BTN_L, boogieRActive := s.held BTN_R }
  match s1.playStyle with
  | PlayStyle.monophonic => handleMonophonic s1
  | PlayStyle.chordButton => handleChordButton s1
  | PlayStyle.polyphonic => handlePolyphonic s1

/-- The playstyle-selection logic of `loop()` in main.ino (the block guarded
by `!state.commandJustExecuted`): update the modifier-active flags, then run
the Boogie scheduler when Boogie mode is selected and the tempo is
established, fall back to `handleMonophonic` when Boogie mode is selected
without an established tempo, do nothing here in Rhythmic mode, and run the
standard playstyles otherwise. -/
def playstyleDispatch (nowMicros : Nat) (s : SynthState) : SynthState × List Ev :=
  if s.commandJustExecuted then (s, [])
  else
    let s1 := { s with boogieLActive := s.held BTN_L, boogieRActive := s.held BTN_R }
    if s1.boogieModeEnabled then
      if s1.tempoEstablished then handleBoogieTiming nowMicros s1
      else handleMonophonic s1
    else if s1.rhythmicModeEnabled then (s1, [])
    else runStandardPlaystyles s1

/-- A concrete state used to instantiate theorems: all buttons up, no clock,
defaults as in synth_state.h with a C-major scale table from middle C. -/
def baseState : SynthState where
  held := fun _ => false
  pressed := fun _ => false
  released := fun _ => false
  lastPressedBuffer := [-1, -1, -1, -1, -1, -1, -1, -1]
  lastPressedIndex := 0
  baseNote := 60
  keyOffset := 0
  scaleMode := 0
  scaleHolder := fun i => 60 + i
  playStyle := PlayStyle.monophonic
  chordProfile := 0
  portamentoEnabled := false
  customProfileIndex := PROFILE_SCALE
  pitchBend := 0
  prevPitchBend := 0
  currentMidiNote := -1
  currentButton := -1
  currentChordNotes := [-1, -1, -1, -1]
  arpeggioOffset := 0
  commandJustExecuted := false
  midiSyncEnabled := false
  tempoEstablished := false
  boogieModeEnabled := false
  rhythmicModeEnabled := false
  lastTickTimeMicros := 0
  beatStartTimeMicros := 0
  boogieTriggerButton := -1
  boogieCurrentSlotIndex := -1
  boogieNoteStartTimeMicros := 0
  boogieNoteStopTimeMicros := 0
  boogieCurrentMidiNote := -1
  usPerMidiTick := 0
  lastMidiClockTime := 0
  boogieLActive := false
  boogieRActive := false
  tickIntervalBuffer := List.replicate 8 0
  tickBufferIndex := 0
  tickBufferFilled := false
  isSamplingTempo := false
  sampleTickCount := 0
  lockedUsPerMidiTick := 0
  samplingIntervalSum := 0
  swingAmount := 0
  prevMidiSyncEnabled := false
  boogieInternalBeatStartTimeMicros := 0

/-- Folding a list of clock-pulse timestamps (microseconds) through
`handleClock`; the millisecond clock is derived from the microsecond one. -/
def clockRun (s : SynthState) (times : List Nat) : SynthState :=
  times.foldl (fun st t => handleClock t (t / 1000) st) s

/-- A Start event at time `t0` followed by `k` clock pulses with constant
inter-pulse interval `d`: pulse `i` (1-based) arrives at `t0 + d * i`. -/
def startThenPulses (s : SynthState) (t0 d k : Nat) : SynthState :=
  clockRun (handleStart t0 (t0 / 1000) s) ((List.range k).map (fun i => t0 + d * (i + 1)))

theorem startThenPulses_succ (s : SynthState) (t0 d k : Nat) :
    startThenPulses s t0 d (k+1) =
      handleClock (t0 + d * (k+1)) ((t0 + d * (k+1)) / 1000) (startThenPulses s t0 d k) := by
  simp [startThenPulses, clockRun, List.range_succ]

/-- Characterization of the sampling phase: while at most
`NUM_SAMPLES_FOR_LOCK` constant-interval pulses have arrived after the Start
event, the tempo is not yet established and the accumulators hold one sample
fewer than the number of pulses (the first pulse only sets the previous-tick
time). -/
theorem startThenPulses_sampling (s : SynthState) (t0 d : Nat)
    (hd : 0 < d) (hd2 : d < 2000000) :
    ∀ k, k ≤ NUM_SAMPLES_FOR_LOCK →
      (startThenPulses s t0 d k).tempoEstablished = false ∧
      (startThenPulses s t0 d k).isSamplingTempo = true ∧
      (startThenPulses s t0 d k).sampleTickCount = k - 1 ∧
      (startThenPulses s t0 d k).samplingIntervalSum = ((k - 1 : Nat) : Rat) * (d : Rat) ∧
      (startThenPulses s t0 d k).lastTickTimeMicros = t0 + d * k ∧
      (startThenPulses s t0 d k).beatStartTimeMicros = t0 := by
  intro k
  induction k with
  | zero =>
      intro _
      simp [startThenPulses, clockRun, handleStart]
  | succ k ih =>
      intro hk
      have hk' : k ≤ NUM_SAMPLES_FOR_LOCK := Nat.le_of_succ_le hk
      obtain ⟨h1, h2, h3, h4, h5, h6⟩ := ih hk'
      rw [startThenPulses_succ]
      rcases Nat.eq_zero_or_pos k with hk0 | hkpos
      · subst hk0
        simp only [handleClock, h1, h2, h3, h4, h5, h6]
        simp
      · have hprev : t0 + d * k > t0 := by
          have : 0 < d * k := Nat.mul_pos hd hkpos
          omega
        have hdelta : (t0 + d * (k+1)) - (t0 + d * k) = d := by
          have : d * (k+1) = d * k + d := by ring
          omega
        have hcnt : k - 1 + 1 = k := Nat.succ_pred_eq_of_pos hkpos
        have hnolock : ¬ NUM_SAMPLES_FOR_LOCK ≤ k := by
          simp only [NUM_SAMPLES_FOR_LOCK] at hk ⊢
          omega
        have hcast : ((k - 1 : Nat) : Rat) = (k : Rat) - ((1 : Nat) : Rat) :=
          Nat.cast_sub hkpos
        have hsum : ((k - 1 : Nat) : Rat) * (d : Rat) + (d : Rat) = ((k : Nat) : Rat) * (d : Rat) := by
          rw [hcast]
          push_cast
          ring
        simp only [handleClock, h1, h2, h3, h4, h5, h6, hdelta]
        simp only [hprev, if_true, hd, hd2, and_true, true_and]
        simp [hnolock, hcnt, hsum, Nat.mul_succ, Nat.add_assoc]

/-- The lock lands on the 25th pulse: after `NUM_SAMPLES_FOR_LOCK + 1`
constant-interval pulses the tempo is established and the locked interval
equals the common interval exactly (exact arithmetic in place of floating
rounding). -/
theorem startThenPulses_lock (s : SynthState) (t0 d : Nat)
    (hd : 0 < d) (hd2 : d < 2000000) :
    (startThenPulses s t0 d (NUM_SAMPLES_FOR_LOCK + 1)).tempoEstablished = true ∧
    (startThenPulses s t0 d (NUM_SAMPLES_FOR_LOCK + 1)).usPerMidiTick = (d : Rat) := by
  obtain ⟨h1, h2, h3, h4, h5, h6⟩ :=
    startThenPulses_sampling s t0 d hd hd2 NUM_SAMPLES_FOR_LOCK le_rfl
  rw [startThenPulses_succ]
  simp only [NUM_SAMPLES_FOR_LOCK] at h1 h2 h3 h4 h5 h6 ⊢
  norm_num at h3 h4
  have hprev : t0 + d * 24 > t0 := by
    have : 0 < d * 24 := Nat.mul_pos hd (by norm_num)
    omega
  have hdelta : (t0 + d * 25) - (t0 + d * 24) = d := by omega
  have hdq : (0 : Rat) < (d : Rat) := by exact_mod_cast hd
  have havg : ((23 : Rat) * (d : Rat) + (d : Rat)) / (24 : Rat) = (d : Rat) := by
    field_simp
    ring
  have hpos : (0 : Rat) < (23 : Rat) * (d : Rat) + (d : Rat) := by linarith
  simp only [handleClock, h1, h2, h3, h4, h5, h6, hdelta]
  norm_num [hprev, hd, hd2, hpos, havg, NUM_SAMPLES_FOR_LOCK]

/-- Claim C1 counterexample: with a Start event at t = 1000 and constant
inter-pulse interval d = 20833 microseconds (0 < d < 2000000), after
processing the 24th pulse after Start, `tempoEstablished` is still false; it
becomes true only on the 25th pulse.  This contradicts the claim that
`tempoEstablished` becomes true exactly when the 24th pulse after the Start
event is processed. -/
theorem C1_counterexample :
    (startThenPulses baseState 1000 20833 NUM_SAMPLES_FOR_LOCK).tempoEstablished = false ∧
    (startThenPulses baseState 1000 20833 (NUM_SAMPLES_FOR_LOCK + 1)).tempoEstablished = true := by
  constructor
  · exact (startThenPulses_sampling baseState 1000 20833 (by norm_num) (by norm_num)
      NUM_SAMPLES_FOR_LOCK le_rfl).1
  · exact (startThenPulses_lock baseState 1000 20833 (by norm_num) (by norm_num)).1

/-- Claim C1 (amended): starting from a Start event, if clock pulses arrive
with a constant inter-pulse interval d with 0 < d < 2,000,000 microseconds,
then `usPerMidiTick` locks to exactly d (exact arithmetic in place of
floating rounding), and `tempoEstablished` becomes true exactly when the
25th pulse after the Start event, which supplies the 24th measured
inter-pulse interval, is processed, not before: the first pulse after Start
only records a previous-tick time and contributes no interval sample. -/
theorem C1_tempo_lock_amended (s : SynthState) (t0 d : Nat)
    (hd : 0 < d) (hd2 : d < 2000000) :
    (∀ k, k ≤ NUM_SAMPLES_FOR_LOCK →
      (startThenPulses s t0 d k).tempoEstablished = false) ∧
    (startThenPulses s t0 d (NUM_SAMPLES_FOR_LOCK + 1)).tempoEstablished = true ∧
    (startThenPulses s t0 d (NUM_SAMPLES_FOR_LOCK + 1)).usPerMidiTick = (d : Rat) := by
  refine ⟨fun k hk => (startThenPulses_sampling s t0 d hd hd2 k hk).1, ?_, ?_⟩
  · exact (startThenPulses_lock s t0 d hd hd2).1
  · exact (startThenPulses_lock s t0 d hd hd2).2

/-- Witness for C1 (amended) at t0 = 1000, d = 20833. -/
theorem C1_tempo_lock_amended_witness :
    (0 < 20833 ∧ 20833 < 2000000) ∧
    ((∀ k, k ≤ NUM_SAMPLES_FOR_LOCK →
      (startThenPulses baseState 1000 20833 k).tempoEstablished = false) ∧
    (startThenPulses baseState 1000 20833 (NUM_SAMPLES_FOR_LOCK + 1)).tempoEstablished = true ∧
    (startThenPulses baseState 1000 20833 (NUM_SAMPLES_FOR_LOCK + 1)).usPerMidiTick = (20833 : Rat)) :=
  ⟨⟨by decide, by decide⟩,
   by exact_mod_cast C1_tempo_lock_amended baseState 1000 20833 (by decide) (by decide)⟩

/-- Claim C4: once the tempo is locked (`tempoEstablished` true, sampling
over), a clock pulse only refreshes the last-pulse timestamps and the
clock-present flag, leaving `usPerMidiTick` and `tempoEstablished`
unchanged; a Stop event sets `midiSyncEnabled` false while leaving
`usPerMidiTick` and `tempoEstablished` unchanged. -/
theorem C4_locked_tempo_persistence (s : SynthState) (tm ms : Nat)
    (h1 : s.tempoEstablished = true) (h2 : s.isSamplingTempo = false) :
    handleClock tm ms s = { s with lastTickTimeMicros := tm, midiSyncEnabled := true,
                                   lastMidiClockTime := ms } ∧
    (handleClock tm ms s).usPerMidiTick = s.usPerMidiTick ∧
    (handleClock tm ms s).tempoEstablished = true ∧
    (handleStop s).1.usPerMidiTick = s.usPerMidiTick ∧
    (handleStop s).1.tempoEstablished = s.tempoEstablished ∧
    (handleStop s).1.midiSyncEnabled = false := by
  have hc : handleClock tm ms s =
      { s with lastTickTimeMicros := tm, midiSyncEnabled := true,
               lastMidiClockTime := ms } := by
    simp [handleClock, h2]
  refine ⟨hc, by rw [hc], by rw [hc]; exact h1, ?_, ?_, ?_⟩ <;>
    · simp only [handleStop]
      split <;> simp

/-- Witness for C4 at a locked state. -/
theorem C4_locked_tempo_persistence_witness :
    (handleClock 500 7 { baseState with tempoEstablished := true, usPerMidiTick := 20833 } =
      { { baseState with tempoEstablished := true, usPerMidiTick := 20833 } with
          lastTickTimeMicros := 500, midiSyncEnabled := true, lastMidiClockTime := 7 } ∧
     (handleClock 500 7 { baseState with tempoEstablished := true, usPerMidiTick := 20833 }).usPerMidiTick =
       ({ baseState with tempoEstablished := true, usPerMidiTick := 20833 } : SynthState).usPerMidiTick ∧
     (handleClock 500 7 { baseState with tempoEstablished := true, usPerMidiTick := 20833 }).tempoEstablished = true ∧
     (handleStop { baseState with tempoEstablished := true, usPerMidiTick := 20833 }).1.usPerMidiTick =
       ({ baseState with tempoEstablished := true, usPerMidiTick := 20833 } : SynthState).usPerMidiTick ∧
     (handleStop { baseState with tempoEstablished := true, usPerMidiTick := 20833 }).1.tempoEstablished =
       ({ baseState with tempoEstablished := true, usPerMidiTick := 20833 } : SynthState).tempoEstablished ∧
     (handleStop { baseState with tempoEstablished := true, usPerMidiTick := 20833 }).1.midiSyncEnabled = false) :=
  C4_locked_tempo_persistence _ 500 7 rfl rfl

/-- A range with no pressed button leaves the newly-pressed accumulator of
the monophonic scan unchanged. -/
theorem monoScanLoop_fst_none (s : SynthState) :
    ∀ fuel i acc, (∀ k, i ≤ k → k < i + fuel → s.pressed k = false) →
      (monoScanLoop s i fuel acc).1 = acc.1 := by
  intro fuel
  induction fuel with
  | zero => intro i acc _; rfl
  | succ n ih =>
      intro i acc h
      rw [monoScanLoop]
      have hi : s.pressed i = false := h i le_rfl (by omega)
      have ih2 := ih (i+1) ⟨(if s.pressed i then (i : Int) else acc.1),
        (if s.released i ∧ (i : Int) = s.currentButton then (i : Int) else acc.2.1),
        (if s.held i ∧ acc.2.2 = -1 then (i : Int) else acc.2.2)⟩
        (fun k hk1 hk2 => h k (by omega) (by omega))
      simpa [hi] using ih2

/-- The monophonic scan (no break) returns the greatest pressed index in its
range. -/
theorem monoScanLoop_fst_max (s : SynthState) :
    ∀ fuel i acc j, i ≤ j → j < i + fuel → s.pressed j = true →
      (∀ k, j < k → k < i + fuel → s.pressed k = false) →
      (monoScanLoop s i fuel acc).1 = (j : Int) := by
  intro fuel
  induction fuel with
  | zero => intro i acc j h1 h2 _ _; omega
  | succ n ih =>
      intro i acc j h1 h2 h3 h4
      rw [monoScanLoop]
      rcases Nat.eq_or_lt_of_le h1 with hij | hij
      · subst hij
        have hrest := monoScanLoop_fst_none s n (i+1) ⟨(if s.pressed i then (i : Int) else acc.1),
          (if s.released i ∧ (i : Int) = s.currentButton then (i : Int) else acc.2.1),
          (if s.held i ∧ acc.2.2 = -1 then (i : Int) else acc.2.2)⟩
          (fun k hk1 hk2 => h4 k (by omega) (by omega))
        simpa [h3] using hrest
      · exact ih (i+1) _ j hij (by omega) h3 (fun k hk1 hk2 => h4 k hk1 (by omega))

/-- A range containing no release of the current button leaves the
released-button accumulator of the monophonic scan unchanged. -/
theorem monoScanLoop_snd_none (s : SynthState) :
    ∀ fuel i acc, (∀ k, i ≤ k → k < i + fuel →
        ¬(s.released k = true ∧ (k : Int) = s.currentButton)) →
      (monoScanLoop s i fuel acc).2.1 = acc.2.1 := by
  intro fuel
  induction fuel with
  | zero => intro i acc _; rfl
  | succ n ih =>
      intro i acc h
      rw [monoScanLoop]
      have hi : ¬(s.released i = true ∧ (i : Int) = s.currentButton) := h i le_rfl (by omega)
      have ih2 := ih (i+1) ⟨(if s.pressed i then (i : Int) else acc.1),
        (if s.released i ∧ (i : Int) = s.currentButton then (i : Int) else acc.2.1),
        (if s.held i ∧ acc.2.2 = -1 then (i : Int) else acc.2.2)⟩
        (fun k hk1 hk2 => h k (by omega) (by omega))
      simpa [hi] using ih2

/-- When the current button lies in the scanned range and is released this
poll, the monophonic scan reports it as the released button. -/
theorem monoScanLoop_snd_eq (s : SynthState) :
    ∀ fuel i acc j, i ≤ j → j < i + fuel →
      s.released j = true → (j : Int) = s.currentButton →
      (monoScanLoop s i fuel acc).2.1 = (j : Int) := by
  intro fuel
  induction fuel with
  | zero => intro i acc j h1 h2 _ _; omega
  | succ n ih =>
      intro i acc j h1 h2 h3 h4
      rw [monoScanLoop]
      rcases Nat.eq_or_lt_of_le h1 with hij | hij
      · subst hij
        have hrest := monoScanLoop_snd_none s n (i+1) ⟨(if s.pressed i then (i : Int) else acc.1),
          (if s.released i ∧ (i : Int) = s.currentButton then (i : Int) else acc.2.1),
          (if s.held i ∧ acc.2.2 = -1 then (i : Int) else acc.2.2)⟩
          (fun k hk1 hk2 hk3 => by
            have hk : (k : Int) = (i : Int) := hk3.2.trans h4.symm
            have hk2' : k = i := by exact_mod_cast hk
            omega)
        rw [hrest]
        simp [h3, h4]
      · exact ih (i+1) _ j hij (by omega) h3 h4

/-- The first-pressed scan (with break) returns the least pressed index in
its range. -/
theorem firstPressedFrom_eq (s : SynthState) :
    ∀ fuel i j, i ≤ j → j < i + fuel → s.pressed j = true →
      (∀ k, i ≤ k → k < j → s.pressed k = false) →
      firstPressedFrom s i fuel = (j : Int) := by
  intro fuel
  induction fuel with
  | zero => intro i j h1 h2 _ _; omega
  | succ n ih =>
      intro i j h1 h2 h3 h4
      rw [firstPressedFrom]
      rcases Nat.eq_or_lt_of_le h1 with hij | hij
      · subst hij; simp [h3]
      · have hi : s.pressed i = false := h4 i le_rfl hij
        simp only [hi, Bool.false_eq_true, if_false]
        exact ih (i+1) j hij (by omega) h3 (fun k hk1 hk2 => h4 k (by omega) hk2)

/-- The first-held-except scan (with break) returns the least held index
different from `skip` in its range. -/
theorem firstHeldExceptFrom_eq (s : SynthState) (skip : Int) :
    ∀ (fuel i j : Nat), i ≤ j → j < i + fuel → (j : Int) ≠ skip → s.held j = true →
      (∀ k, i ≤ k → k < j → ¬((k : Int) ≠ skip ∧ s.held k = true)) →
      firstHeldExceptFrom s skip i fuel = (j : Int) := by
  intro fuel
  induction fuel with
  | zero => intro i j h1 h2 _ _ _; omega
  | succ n ih =>
      intro i j h1 h2 h3 h4 h5
      rw [firstHeldExceptFrom]
      rcases Nat.eq_or_lt_of_le h1 with hij | hij
      · subst hij; simp [h3, h4]
      · have hi : ¬((i : Int) ≠ skip ∧ s.held i = true) := h5 i le_rfl hij
        have : ¬((i : Int) ≠ skip ∧ s.held i) := by simpa using hi
        simp only [this, if_false]
        exact ih (i+1) j hij (by omega) h3 h4 (fun k hk1 hk2 => h5 k (by omega) hk2)

/-- The musical-position table maps every note-button index into [0, 12). -/
theorem buttonToMusicalPosition_range :
    ∀ i, i < 10 → 0 ≤ buttonToMusicalPosition i ∧ buttonToMusicalPosition i < 12 := by
  decide

/-- Claim C7: when Boogie mode is selected, no command interrupted the poll,
and the tempo is not established, the engine runs exactly the Monophonic
playstyle on the same state (after the usual update of the modifier-active
flags): the same note-on/note-off decisions from the same button state, with
no slot quantization. -/
theorem C7_boogie_fallback_monophonic (s : SynthState) (now : Nat)
    (h1 : s.commandJustExecuted = false) (h2 : s.boogieModeEnabled = true)
    (h3 : s.tempoEstablished = false) :
    playstyleDispatch now s =
      handleMonophonic { s with boogieLActive := s.held BTN_L,
                                boogieRActive := s.held BTN_R } := by
  simp [playstyleDispatch, h1, h2, h3]

/-- Witness for C7 at a concrete Boogie-without-tempo state. -/
theorem C7_boogie_fallback_monophonic_witness :
    playstyleDispatch 0 { baseState with boogieModeEnabled := true,
                                         held := fun i => i = 5,
                                         pressed := fun i => i = 5 } =
      handleMonophonic { { baseState with boogieModeEnabled := true,
                                          held := fun i => i = 5,
                                          pressed := fun i => i = 5 } with
        boogieLActive := ({ baseState with boogieModeEnabled := true,
                                           held := fun i => i = 5,
                                           pressed := fun i => i = 5 } : SynthState).held BTN_L,
        boogieRActive := ({ baseState with boogieModeEnabled := true,
                                           held := fun i => i = 5,
                                           pressed := fun i => i = 5 } : SynthState).held BTN_R } :=
  C7_boogie_fallback_monophonic _ 0 rfl rfl rfl

/-- Claim C10: when two or more note buttons are freshly pressed in the same
poll, the Monophonic scan (no break) selects the pressed note button with
the greatest index, while the Chord handler scan and the beat scheduler scan
(both break at the first match) select the least index; Monophonic then
sounds the greatest-index button and Chord the least-index button. -/
theorem C10_simultaneous_press_disagreement (s : SynthState) (lo hi : Nat)
    (hlo10 : lo < 10) (hhi10 : hi < 10)
    (hplo : s.pressed lo = true) (hphi : s.pressed hi = true)
    (hmin : ∀ k, k < 10 → s.pressed k = true → lo ≤ k)
    (hmax : ∀ k, k < 10 → s.pressed k = true → k ≤ hi) :
    (monoInputs s).1 = (hi : Int) ∧
    firstPressedFrom s 0 10 = (lo : Int) ∧
    firstPressedFrom s 0 MAX_NOTE_BUTTONS = (lo : Int) := by
  have hfst : (monoScanLoop s 0 MAX_NOTE_BUTTONS (-1, -1, -1)).1 = (hi : Int) := by
    refine monoScanLoop_fst_max s MAX_NOTE_BUTTONS 0 _ hi (Nat.zero_le hi)
      (by simpa [MAX_NOTE_BUTTONS] using hhi10) hphi ?_
    intro k hk1 hk2
    by_contra hkp
    have := hmax k (by simpa [MAX_NOTE_BUTTONS] using hk2) (by simpa using hkp)
    omega
  have hlo' : firstPressedFrom s 0 10 = (lo : Int) := by
    refine firstPressedFrom_eq s 10 0 lo (Nat.zero_le lo) (by omega) hplo ?_
    intro k hk1 hk2
    by_contra hkp
    have := hmin k (by omega) (by simpa using hkp)
    omega
  refine ⟨?_, hlo', by simpa [MAX_NOTE_BUTTONS] using hlo'⟩
  simp only [monoInputs]
  have hne : ¬((hi : Int) = -1) := by omega
  simp [hfst, hne]

/-- Witness for C10 with buttons 2 and 6 pressed simultaneously. -/
theorem C10_simultaneous_press_disagreement_witness :
    ((monoInputs { baseState with held := fun i => i = 2 ∨ i = 6,
                                  pressed := fun i => i = 2 ∨ i = 6 }).1 = ((6 : Nat) : Int) ∧
     firstPressedFrom { baseState with held := fun i => i = 2 ∨ i = 6,
                                       pressed := fun i => i = 2 ∨ i = 6 } 0 10 = ((2 : Nat) : Int) ∧
     firstPressedFrom { baseState with held := fun i => i = 2 ∨ i = 6,
                                       pressed := fun i => i = 2 ∨ i = 6 } 0 MAX_NOTE_BUTTONS = ((2 : Nat) : Int)) :=
  C10_simultaneous_press_disagreement _ 2 6 (by decide) (by decide) (by decide) (by decide)
    (by decide) (by decide)

/-- A range with no pressed button makes the first-pressed scan return -1. -/
theorem firstPressedFrom_none (s : SynthState) :
    ∀ fuel i, (∀ k, i ≤ k → k < i + fuel → s.pressed k = false) →
      firstPressedFrom s i fuel = -1 := by
  intro fuel
  induction fuel with
  | zero => intro i _; rfl
  | succ n ih =>
      intro i h
      rw [firstPressedFrom]
      have hi : s.pressed i = false := h i le_rfl (by omega)
      simp only [hi, Bool.false_eq_true, if_false]
      exact ih (i+1) (fun k hk1 hk2 => h k (by omega) (by omega))

/-- Modelled from the spec (section 4.2, rule 2, first tier): scan the press
history newest-first, skipping the just-released index, and select the first
entry that is a valid note-button index and still held. -/
def specHistoryScanFrom (s : SynthState) (justReleased : Int) : Nat → Nat → Int
  | _, 0 => -1
  | readIndex, fuel+1 =>
    let ri := (readIndex + LAST_PRESS_BUFFER_SIZE - 1) % LAST_PRESS_BUFFER_SIZE
    let b := s.lastPressedBuffer.getD ri (-1)
    if b ≠ justReleased ∧ b ≥ 0 ∧ b < (MAX_NOTE_BUTTONS : Int) ∧ s.held b.toNat then b
    else specHistoryScanFrom s justReleased ri fuel

/-- Modelled from the spec (section 4.2, rule 2, second tier): scan buttons
in ascending index order and select the first still held. -/
def specFirstHeldFrom (s : SynthState) : Nat → Nat → Int
  | _, 0 => -1
  | i, fuel+1 => if s.held i then (i : Int) else specFirstHeldFrom s (i+1) fuel

/-- Modelled from the spec (section 4.2, rule 2): the two-tier replacement
choice after the currently sounding button is released — recency buffer
first, then lowest held index, else -1 (stop the note). -/
def specReplacementButton (s : SynthState) (justReleased : Int) : Int :=
  let h := specHistoryScanFrom s justReleased s.lastPressedIndex LAST_PRESS_BUFFER_SIZE
  if h ≠ -1 then h else specFirstHeldFrom s 0 MAX_NOTE_BUTTONS

/-- The chord retrigger buffer scan coincides with the spec history tier for
`justReleased` equal to the currently sounding button (the skip conditions
agree). -/
theorem chordScanBufferFrom_eq_spec (s : SynthState) :
    ∀ fuel ri, chordScanBufferFrom s ri fuel =
      specHistoryScanFrom s s.currentButton ri fuel := by
  intro fuel
  induction fuel with
  | zero => intro ri; rfl
  | succ n ih =>
      intro ri
      simp only [chordScanBufferFrom, specHistoryScanFrom]
      set b := s.lastPressedBuffer.getD
        ((ri + LAST_PRESS_BUFFER_SIZE - 1) % LAST_PRESS_BUFFER_SIZE) (-1) with hb
      have hiff : (b ≥ 0 ∧ b < (MAX_NOTE_BUTTONS : Int) ∧ s.held b.toNat = true ∧
          b ≠ s.currentButton) ↔
          (b ≠ s.currentButton ∧ b ≥ 0 ∧ b < (MAX_NOTE_BUTTONS : Int) ∧
            s.held b.toNat = true) := by tauto
      exact if_congr hiff rfl (ih _)

/-- When the skipped button is not held, the first-held-except scan
coincides with the spec ascending tier (the skip is redundant). -/
theorem firstHeldExceptFrom_eq_specFirstHeld (s : SynthState) (skip : Int)
    (hsk : ∀ k : Nat, (k : Int) = skip → s.held k = false) :
    ∀ fuel i, firstHeldExceptFrom s skip i fuel = specFirstHeldFrom s i fuel := by
  intro fuel
  induction fuel with
  | zero => intro i; rfl
  | succ n ih =>
      intro i
      rw [firstHeldExceptFrom, specFirstHeldFrom]
      by_cases hi : (i : Int) = skip
      · have : s.held i = false := hsk i hi
        simp [this, hi, ih]
      · simp [hi, ih]

/-- When the just-released button is not held, the resolver buffer scan of
`getBaseMidiNote` coincides with the spec history tier (a released button
fails the held check anyway). -/
theorem scanBufferHeldFrom_eq_spec (s : SynthState) (justReleased : Int)
    (hsk : ∀ k : Nat, (k : Int) = justReleased → s.held k = false) :
    ∀ fuel ri, scanBufferHeldFrom s ri fuel =
      specHistoryScanFrom s justReleased ri fuel := by
  intro fuel
  induction fuel with
  | zero => intro ri; rfl
  | succ n ih =>
      intro ri
      simp only [scanBufferHeldFrom, specHistoryScanFrom]
      set b := s.lastPressedBuffer.getD
        ((ri + LAST_PRESS_BUFFER_SIZE - 1) % LAST_PRESS_BUFFER_SIZE) (-1) with hb
      have hiff : (b ≥ 0 ∧ b < (MAX_NOTE_BUTTONS : Int) ∧ s.held b.toNat = true) ↔
          (b ≠ justReleased ∧ b ≥ 0 ∧ b < (MAX_NOTE_BUTTONS : Int) ∧
            s.held b.toNat = true) := by
        constructor
        · intro h
          refine ⟨?_, h.1, h.2.1, h.2.2⟩
          intro hbr
          have hne := hsk b.toNat (by rw [Int.toNat_of_nonneg h.1, hbr])
          rw [h.2.2] at hne
          exact Bool.noConfusion hne
        · intro h
          exact ⟨h.2.1, h.2.2.1, h.2.2.2⟩
      exact if_congr hiff rfl (ih _)

/-- A concrete release-poll state for claim C3: buttons 3 and 7 still held,
the currently sounding button 5 released this poll, press history
(oldest to newest) 3, 7, 5. -/
def c3State : SynthState := { baseState with
  held := fun i => i = 3 ∨ i = 7,
  released := fun i => i = 5,
  currentButton := 5,
  currentMidiNote := 65,
  lastPressedBuffer := [3, 7, 5, -1, -1, -1, -1, -1],
  lastPressedIndex := 3 }

/-- Claim C3 counterexample: in the release poll `c3State`, the resolver
described by the claim (history newest-first skipping the released index,
then ascending fallback) selects button 7 (the most recent still-held
press), but the Monophonic handler selects button 3 (the lowest still-held
index): its release path never consults the press history. -/
theorem C3_counterexample :
    specReplacementButton c3State ((5 : Nat) : Int) = 7 ∧
    (handleMonophonic c3State).1.currentButton = 3 ∧
    c3State.currentButton = 5 ∧ c3State.released 5 = true ∧
    c3State.held 3 = true ∧ c3State.held 7 = true := by
  decide

/-- Claim C3 (amended): in a release poll (no fresh press, the currently
sounding button `c` released), the Chord handler implements the full
two-tier reselection of the spec (history newest-first skipping the released
index, then ascending first-held, else stop); the Monophonic handler skips
the history tier and selects the lowest-index still-held button other than
the released one; and the beat scheduler resolver `getBaseMidiNote` performs
only the history tier, reporting no note (no ascending fallback) whenever
the history scan misses, even though a note button is held. -/
theorem C3_release_reselection_amended (s : SynthState) (c j : Nat)
    (hc : s.currentButton = (c : Int)) (hc10 : c < 10)
    (hrel : s.released c = true) (hheldc : s.held c = false)
    (hnp : ∀ k, k < 10 → s.pressed k = false) (hnpL : s.pressed BTN_L = false)
    (hj10 : j < 10) (hjne : j ≠ c) (hheldj : s.held j = true)
    (hleast : ∀ k, k < j → ¬(k ≠ c ∧ s.held k = true))
    (hbase : monoBaseNotePlain s (j : Int) ≠ -1) :
    (handleMonophonic s).1.currentButton = (j : Int) ∧
    (handleChordButton s).1.currentButton = specReplacementButton s (c : Int) ∧
    (scanBufferHeldFrom s s.lastPressedIndex LAST_PRESS_BUFFER_SIZE =
       specHistoryScanFrom s (c : Int) s.lastPressedIndex LAST_PRESS_BUFFER_SIZE) ∧
    (specHistoryScanFrom s (c : Int) s.lastPressedIndex LAST_PRESS_BUFFER_SIZE = -1 →
       getBaseMidiNote s = -1) := by
  have hskip : ∀ k : Nat, (k : Int) = (c : Int) → s.held k = false := by
    intro k hk
    have : k = c := by exact_mod_cast hk
    rw [this]; exact hheldc
  -- scan facts
  have ht1 : (monoScanLoop s 0 MAX_NOTE_BUTTONS (-1, -1, -1)).1 = -1 := by
    refine monoScanLoop_fst_none s MAX_NOTE_BUTTONS 0 _ ?_
    intro k _ hk
    exact hnp k (by simpa [MAX_NOTE_BUTTONS] using hk)
  have ht2 : (monoScanLoop s 0 MAX_NOTE_BUTTONS (-1, -1, -1)).2.1 = (c : Int) := by
    exact monoScanLoop_snd_eq s MAX_NOTE_BUTTONS 0 _ c (Nat.zero_le c)
      (by simpa [MAX_NOTE_BUTTONS] using hc10) hrel hc.symm
  have hmi1 : (monoInputs s).1 = -1 := by
    simp [monoInputs, ht1, hnpL]
  have hmi2 : (monoInputs s).2.1 = (c : Int) := by
    simp [monoInputs, ht1, ht2, hnpL]
  have hretrig : firstHeldExceptFrom s (c : Int) 0 MAX_NOTE_BUTTONS = (j : Int) := by
    refine firstHeldExceptFrom_eq s (c : Int) MAX_NOTE_BUTTONS 0 j (Nat.zero_le j)
      (by simpa [MAX_NOTE_BUTTONS] using hj10) (by exact_mod_cast fun h => hjne (by exact_mod_cast h)) hheldj ?_
    intro k _ hk hand
    exact hleast k hk ⟨fun h => hand.1 (by exact_mod_cast h), hand.2⟩
  have hcne : ((c : Int)) ≠ -1 := by omega
  have hjne' : ((j : Int)) ≠ -1 := by omega
  refine ⟨?_, ?_, ?_, ?_⟩
  · -- Monophonic: release path, retrigger the lowest held index ≠ c
    simp only [handleMonophonic, hmi1, hmi2]
    rw [if_neg (by simp), if_pos hcne, hretrig, if_pos hjne', if_pos hbase]
  · -- Chord: full two-tier scheme
    have hnp' : firstPressedFrom s 0 10 = -1 :=
      firstPressedFrom_none s 10 0 (fun k _ hk => hnp k (by omega))
    have hbufeq : chordScanBufferFrom s s.lastPressedIndex LAST_PRESS_BUFFER_SIZE =
        specHistoryScanFrom s (c : Int) s.lastPressedIndex LAST_PRESS_BUFFER_SIZE := by
      rw [chordScanBufferFrom_eq_spec, hc]
    have hfbeq : firstHeldExceptFrom s ((c : Nat) : Int) 0 MAX_NOTE_BUTTONS =
        specFirstHeldFrom s 0 MAX_NOTE_BUTTONS :=
      firstHeldExceptFrom_eq_specFirstHeld s (c : Int) hskip MAX_NOTE_BUTTONS 0
    have hfb_j : specFirstHeldFrom s 0 MAX_NOTE_BUTTONS = (j : Int) := by
      rw [← hfbeq]; exact hretrig
    rcases eq_or_ne (specHistoryScanFrom s (c : Int) s.lastPressedIndex LAST_PRESS_BUFFER_SIZE)
        (-1) with hh | hh
    · simp [handleChordButton, specReplacementButton, hnp', hbufeq, hc, hrel,
        Int.toNat_natCast, hh, hcne, hfb_j, hjne', hretrig]
    · simp [handleChordButton, specReplacementButton, hnp', hbufeq, hc, hrel,
        Int.toNat_natCast, hh, hcne]
  · exact scanBufferHeldFrom_eq_spec s (c : Int) hskip LAST_PRESS_BUFFER_SIZE s.lastPressedIndex
  · intro hmiss
    have := scanBufferHeldFrom_eq_spec s (c : Int) hskip LAST_PRESS_BUFFER_SIZE s.lastPressedIndex
    simp only [getBaseMidiNote, this, hmiss]
    simp

/-- Witness for C3 (amended) at the concrete release poll `c3State` with
c = 5 and j = 3 (history selects 7 for Chord, ascending selects 3 for
Monophonic). -/
theorem C3_release_reselection_amended_witness :
    ((handleMonophonic c3State).1.currentButton = ((3 : Nat) : Int) ∧
     (handleChordButton c3State).1.currentButton = specReplacementButton c3State ((5 : Nat) : Int) ∧
     (scanBufferHeldFrom c3State c3State.lastPressedIndex LAST_PRESS_BUFFER_SIZE =
        specHistoryScanFrom c3State ((5 : Nat) : Int) c3State.lastPressedIndex LAST_PRESS_BUFFER_SIZE) ∧
     (specHistoryScanFrom c3State ((5 : Nat) : Int) c3State.lastPressedIndex LAST_PRESS_BUFFER_SIZE = -1 →
        getBaseMidiNote c3State = -1)) :=
  C3_release_reselection_amended c3State 5 3 rfl (by decide) (by decide) (by decide)
    (by decide) (by decide) (by decide) (by decide) (by decide)
    (by decide) (by decide)

/-- For a non-negative rational, `ulong` is the floor. -/
theorem ulong_eq_floor (q : Rat) (hq : 0 ≤ q) : ((ulong q : Nat) : Int) = ⌊q⌋ := by
  rw [Rat.floor_def, ulong]
  have hnum : 0 ≤ q.num := Rat.num_nonneg.mpr hq
  have hdiv : ((q.num.toNat / q.den : Nat) : Int) = (q.num.toNat : Int) / (q.den : Int) :=
    Int.ofNat_tdiv q.num.toNat q.den
  rw [hdiv, Int.toNat_of_nonneg hnum]

/-- `ulong` is the identity on natural values. -/
theorem ulong_natCast (n : Nat) : ulong ((n : Nat) : Rat) = n := by
  have h := ulong_eq_floor ((n : Nat) : Rat) (by positivity)
  rw [Int.floor_natCast] at h
  exact_mod_cast h

/-- `ulong q` is at most `q` for non-negative `q`. -/
theorem ulong_le (q : Rat) (hq : 0 ≤ q) : ((ulong q : Nat) : Rat) ≤ q := by
  have h := ulong_eq_floor q hq
  have h2 : ((⌊q⌋ : Int) : Rat) ≤ q := Int.floor_le q
  calc ((ulong q : Nat) : Rat) = ((⌊q⌋ : Int) : Rat) := by exact_mod_cast h
    _ ≤ q := h2

/-- `q` is less than `ulong q + 1` for non-negative `q`. -/
theorem lt_ulong_add_one (q : Rat) (hq : 0 ≤ q) : q < ((ulong q : Nat) : Rat) + 1 := by
  have h := ulong_eq_floor q hq
  have h2 : q < ((⌊q⌋ : Int) : Rat) + 1 := Int.lt_floor_add_one q
  have h3 : ((ulong q : Nat) : Rat) = ((⌊q⌋ : Int) : Rat) := by exact_mod_cast h
  rw [h3]
  exact h2

/-- Claim C6: swing-mode slot timing for a locked tick interval of `u`
microseconds (beat duration B = 24u) and swing amount `sw` in [0,1]:
slot 0 starts at beat-relative offset 0; slot 1 starts at offset
B/2 + sw*(B/6) (up to the sub-microsecond truncation of the C unsigned-long
cast; exactly B/2 = 12u at sw = 0, and exactly 12u + 4u at sw = 1, the
added delay 4u being exactly B/6); each slot's note-off offset is the
minimum of 50% of the nominal unswung half-beat duration (6u past the
slot start) and the next slot's start offset (slot 1's next slot being the
beat end at B), so a note never overlaps the following slot. -/
theorem C6_swing_slot_timing (u : Nat) (hu : 0 < u) (sw : Rat)
    (hsw0 : 0 ≤ sw) (hsw1 : sw ≤ 1) :
    (swingSlotRels ((u : Rat) * 24) sw).1 = 0 ∧
    (((swingSlotRels ((u : Rat) * 24) sw).2.1 : Rat) ≤
        (u : Rat) * 24 / 2 + sw * ((u : Rat) * 24 / 6) ∧
      (u : Rat) * 24 / 2 + sw * ((u : Rat) * 24 / 6) <
        ((swingSlotRels ((u : Rat) * 24) sw).2.1 : Rat) + 1) ∧
    (sw = 0 → (swingSlotRels ((u : Rat) * 24) sw).2.1 = 12 * u) ∧
    (sw = 1 → (swingSlotRels ((u : Rat) * 24) sw).2.1 = 12 * u + 4 * u) ∧
    (swingSlotRels ((u : Rat) * 24) sw).2.2.1 =
      min (6 * u) ((swingSlotRels ((u : Rat) * 24) sw).2.1) ∧
    (swingSlotRels ((u : Rat) * 24) sw).2.2.2 =
      min ((swingSlotRels ((u : Rat) * 24) sw).2.1 + 6 * u) (24 * u) ∧
    (swingSlotRels ((u : Rat) * 24) sw).2.2.1 ≤ (swingSlotRels ((u : Rat) * 24) sw).2.1 ∧
    (swingSlotRels ((u : Rat) * 24) sw).2.2.2 ≤ 24 * u := by
  have h6 : ((u : Rat) * 24 / 2) * (1/2) = ((6 * u : Nat) : Rat) := by push_cast; ring
  have h24 : ((u : Rat) * 24) = ((24 * u : Nat) : Rat) := by push_cast; ring
  have hn0 : ulong (((u : Rat) * 24 / 2) * (1/2)) = 6 * u := by rw [h6, ulong_natCast]
  have hq24 : ulong ((u : Rat) * 24) = 24 * u := by rw [h24, ulong_natCast]
  have hA0 : 0 ≤ (u : Rat) * 24 / 2 + sw * ((u : Rat) * 24 / 6) := by positivity
  refine ⟨rfl, ⟨?_, ?_⟩, ?_, ?_, ?_, ?_, ?_, ?_⟩
  · simpa [swingSlotRels] using ulong_le _ hA0
  · simpa [swingSlotRels] using lt_ulong_add_one _ hA0
  · intro hsw
    subst hsw
    have h12 : (u : Rat) * 24 / 2 + 0 * ((u : Rat) * 24 / 6) = ((12 * u : Nat) : Rat) := by
      push_cast; ring
    simp only [swingSlotRels]
    rw [h12, ulong_natCast]
  · intro hsw
    subst hsw
    have h16 : (u : Rat) * 24 / 2 + 1 * ((u : Rat) * 24 / 6) = ((12 * u + 4 * u : Nat) : Rat) := by
      push_cast; ring
    simp only [swingSlotRels]
    rw [h16, ulong_natCast]
  · simp only [swingSlotRels, hn0]
  · simp only [swingSlotRels, hn0, hq24]
  · simp only [swingSlotRels]
    exact Nat.min_le_right _ _
  · simp only [swingSlotRels, hq24]
    exact Nat.min_le_right _ _

/-- Witness for C6 at u = 1000, sw = 0. -/
theorem C6_swing_slot_timing_witness :
    ((swingSlotRels ((1000 : Nat) * 24 : Rat) 0).1 = 0 ∧
     (((swingSlotRels ((1000 : Nat) * 24 : Rat) 0).2.1 : Rat) ≤
         (1000 : Nat) * 24 / 2 + 0 * ((1000 : Nat) * 24 / 6) ∧
       ((1000 : Nat) : Rat) * 24 / 2 + 0 * (((1000 : Nat) : Rat) * 24 / 6) <
         ((swingSlotRels (((1000 : Nat) : Rat) * 24) 0).2.1 : Rat) + 1) ∧
     ((0 : Rat) = 0 → (swingSlotRels (((1000 : Nat) : Rat) * 24) 0).2.1 = 12 * 1000) ∧
     ((0 : Rat) = 1 → (swingSlotRels (((1000 : Nat) : Rat) * 24) 0).2.1 = 12 * 1000 + 4 * 1000) ∧
     (swingSlotRels (((1000 : Nat) : Rat) * 24) 0).2.2.1 =
       min (6 * 1000) ((swingSlotRels (((1000 : Nat) : Rat) * 24) 0).2.1) ∧
     (swingSlotRels (((1000 : Nat) : Rat) * 24) 0).2.2.2 =
       min ((swingSlotRels (((1000 : Nat) : Rat) * 24) 0).2.1 + 6 * 1000) (24 * 1000) ∧
     (swingSlotRels (((1000 : Nat) : Rat) * 24) 0).2.2.1 ≤
       (swingSlotRels (((1000 : Nat) : Rat) * 24) 0).2.1 ∧
     (swingSlotRels (((1000 : Nat) : Rat) * 24) 0).2.2.2 ≤ 24 * 1000) :=
  C6_swing_slot_timing 1000 (by decide) 0 (by simp) (by simp)

/-- Fold of the MIDI note on/off discipline for the rhythmic voice over an
event trace: starting with outstanding note `cur` (-1 for none), every
note-on must occur while no note is outstanding and every note-off must
match the outstanding note; the result is the outstanding note at the end,
or `none` on any violation. -/
def midiOnOffOk : Int → List Ev → Option Int
  | cur, [] => some cur
  | cur, Ev.midiOn n :: t => if cur = -1 then midiOnOffOk n t else none
  | cur, Ev.midiOff n :: t => if cur = n then midiOnOffOk (-1) t else none
  | cur, _ :: t => midiOnOffOk cur t

/-- Appending traces composes the discipline fold. -/
theorem midiOnOffOk_append (l1 : List Ev) :
    ∀ (cur mid : Int) (l2 : List Ev), midiOnOffOk cur l1 = some mid →
      midiOnOffOk cur (l1 ++ l2) = midiOnOffOk mid l2 := by
  induction l1 with
  | nil =>
      intro cur mid l2 h
      simp only [midiOnOffOk] at h
      cases h
      simp
  | cons e t ih =>
      intro cur mid l2 h
      cases e with
      | midiOn n =>
          rw [midiOnOffOk] at h
          by_cases hc : cur = -1
          · rw [if_pos hc] at h
            rw [List.cons_append, midiOnOffOk, if_pos hc]
            exact ih n mid l2 h
          · rw [if_neg hc] at h; cases h
      | midiOff n =>
          rw [midiOnOffOk] at h
          by_cases hc : cur = n
          · rw [if_pos hc] at h
            rw [List.cons_append, midiOnOffOk, if_pos hc]
            exact ih (-1) mid l2 h
          · rw [if_neg hc] at h; cases h
      | play v n =>
          simp only [midiOnOffOk, List.cons_append] at h ⊢
          exact ih cur mid l2 h
      | stopVoice v =>
          simp only [midiOnOffOk, List.cons_append] at h ⊢
          exact ih cur mid l2 h
      | allNotesOff =>
          simp only [midiOnOffOk, List.cons_append] at h ⊢
          exact ih cur mid l2 h

/-- The clock-transition block keeps the on/off discipline and tracks the
sounding-note field. -/
theorem boogieClockTransitions_ok (s : SynthState) :
    midiOnOffOk s.boogieCurrentMidiNote (boogieClockTransitions s).2 =
      some ((boogieClockTransitions s).1.boogieCurrentMidiNote) := by
  rw [boogieClockTransitions]
  by_cases h1 : s.midiSyncEnabled = false ∧ s.prevMidiSyncEnabled = true <;>
    by_cases h2 : s.midiSyncEnabled = true ∧ s.prevMidiSyncEnabled = false <;>
      by_cases h3 : s.boogieCurrentMidiNote = -1 <;>
        simp [h1, h2, h3, midiOnOffOk]

/-- The sequence-trigger block keeps the on/off discipline and tracks the
sounding-note field. -/
theorem boogieSequenceTrigger_ok (now : Nat) (np pbn : Int) (br : Nat) (s : SynthState) :
    midiOnOffOk s.boogieCurrentMidiNote (boogieSequenceTrigger now np pbn br s).2.1 =
      some ((boogieSequenceTrigger now np pbn br s).1.boogieCurrentMidiNote) := by
  simp only [boogieSequenceTrigger]
  split_ifs <;> simp_all [midiOnOffOk]

set_option maxHeartbeats 1000000 in
/-- The triplet section keeps the on/off discipline, and reports a target
slot only when no note is left sounding. -/
theorem boogieTripletPhase_ok (now ref : Nat) (q : Rat) (el : Nat) (s : SynthState) :
    midiOnOffOk s.boogieCurrentMidiNote (boogieTripletPhase now ref q el s).2.1 =
      some ((boogieTripletPhase now ref q el s).1.boogieCurrentMidiNote) ∧
    ((boogieTripletPhase now ref q el s).2.2 ≠ -1 →
      (boogieTripletPhase now ref q el s).1.boogieCurrentMidiNote = -1) := by
  rw [boogieTripletPhase]
  by_cases h1 : s.boogieCurrentMidiNote = -1 <;>
    by_cases h2 : s.boogieCurrentSlotIndex ≥ 0 ∧ s.boogieCurrentSlotIndex ≤ 2 <;>
      simp [h1, h2, midiOnOffOk] <;>
        (try split_ifs) <;>
          (try simp_all [midiOnOffOk])

set_option maxHeartbeats 2000000 in
/-- The swing section keeps the on/off discipline, and reports a target slot
only when no note is left sounding. -/
theorem boogieSwingPhase_ok (now ref : Nat) (q : Rat) (s : SynthState) :
    midiOnOffOk s.boogieCurrentMidiNote (boogieSwingPhase now ref q s).2.1 =
      some ((boogieSwingPhase now ref q s).1.boogieCurrentMidiNote) ∧
    ((boogieSwingPhase now ref q s).2.2 ≠ -1 →
      (boogieSwingPhase now ref q s).1.boogieCurrentMidiNote = -1) := by
  rw [boogieSwingPhase]
  by_cases h1 : s.boogieCurrentMidiNote = -1 <;>
    by_cases h2 : s.pressed BTN_L = true ∧ s.boogieCurrentSlotIndex = 0 <;>
      by_cases h3 : s.pressed BTN_R = true ∧ s.boogieCurrentSlotIndex = 1 <;>
        simp [h1, h2, h3, midiOnOffOk] <;>
          (try split_ifs) <;>
            (try simp_all [midiOnOffOk])

/-- The play section emits its note-on only under the guarantee that no note
is outstanding, so it keeps the discipline. -/
theorem boogiePlayPhase_ok (now ref : Nat) (q : Rat) (pbn targetSlot : Int)
    (s : SynthState) (h : targetSlot ≠ -1 → s.boogieCurrentMidiNote = -1) :
    midiOnOffOk s.boogieCurrentMidiNote (boogiePlayPhase now ref q pbn targetSlot s).2 =
      some ((boogiePlayPhase now ref q pbn targetSlot s).1.boogieCurrentMidiNote) := by
  by_cases h1 : targetSlot ≠ -1
  · have hcur := h h1
    rw [boogiePlayPhase, if_pos h1]
    split_ifs <;> simp [midiOnOffOk, hcur]
  · rw [boogiePlayPhase, if_neg h1]
    simp [midiOnOffOk]

/-- One full scheduler poll keeps the MIDI on/off discipline for the
rhythmic voice and leaves `boogieCurrentMidiNote` tracking the outstanding
note. -/
theorem handleBoogieTiming_ok (now : Nat) (s : SynthState) :
    midiOnOffOk s.boogieCurrentMidiNote (handleBoogieTiming now s).2 =
      some ((handleBoogieTiming now s).1.boogieCurrentMidiNote) := by
  rw [handleBoogieTiming]
  by_cases h0 : s.tempoEstablished = false ∨ s.usPerMidiTick ≤ 0
  · rw [if_pos h0]
    split_ifs <;> simp_all [midiOnOffOk]
  · rw [if_neg h0]
    have hp2 := boogieClockTransitions_ok s
    set p2 := boogieClockTransitions s with hp2def
    set s2 := p2.1 with hs2
    by_cases hq : s2.usPerMidiTick * 24 ≤ 0
    · simp only [hq, if_pos]
      exact hp2
    · simp only [hq, if_neg, if_false]
      set np := firstPressedFrom s2 0 MAX_NOTE_BUTTONS
      set pbn := getBaseMidiNote s2
      set br0 := (if s2.midiSyncEnabled = true then s2.beatStartTimeMicros
        else if s2.boogieTriggerButton ≠ -1 then s2.boogieInternalBeatStartTimeMicros
        else 0)
      have htrig := boogieSequenceTrigger_ok now np pbn br0 s2
      set trig := boogieSequenceTrigger now np pbn br0 s2 with htrigdef
      set s3 := trig.1 with hs3
      have hcomp1 : midiOnOffOk s.boogieCurrentMidiNote (p2.2 ++ trig.2.1) =
          some (s3.boogieCurrentMidiNote) := by
        rw [midiOnOffOk_append p2.2 _ _ _ hp2]
        exact htrig
      by_cases hact : s3.boogieTriggerButton = -1 ∨ trig.2.2 = 0 ∨ pbn = -1
      · rw [if_pos hact]
        by_cases hnote : s3.boogieCurrentMidiNote ≠ -1
        · rw [if_pos hnote]
          simp only
          rw [midiOnOffOk_append _ _ _ _ hcomp1]
          simp [midiOnOffOk]
        · rw [if_neg hnote]
          simp only [not_not] at hnote
          simp only
          rw [hcomp1, hnote]
      · rw [if_neg hact]
        simp only
        set phase := (if s3.held BTN_L = true ∧ s3.held BTN_R = true then
            boogieTripletPhase now trig.2.2 (s2.usPerMidiTick * 24)
              ((now - trig.2.2) % ulong (s2.usPerMidiTick * 24)) s3
          else
            boogieSwingPhase now trig.2.2 (s2.usPerMidiTick * 24) s3) with hphasedef
        have hphase : midiOnOffOk s3.boogieCurrentMidiNote phase.2.1 =
            some phase.1.boogieCurrentMidiNote ∧
            (phase.2.2 ≠ -1 → phase.1.boogieCurrentMidiNote = -1) := by
          rw [hphasedef]
          split_ifs
          · exact boogieTripletPhase_ok _ _ _ _ _
          · exact boogieSwingPhase_ok _ _ _ _
        have hfin := boogiePlayPhase_ok now trig.2.2 (s2.usPerMidiTick * 24) pbn
          phase.2.2 phase.1 hphase.2
        rw [List.append_assoc]
        rw [midiOnOffOk_append _ _ _ _ hcomp1]
        rw [midiOnOffOk_append _ _ _ _ hphase.1]
        exact hfin


/-- A MIDI Stop event keeps the MIDI on/off discipline for the rhythmic
voice. -/
theorem handleStop_ok (s : SynthState) :
    midiOnOffOk s.boogieCurrentMidiNote (handleStop s).2 =
      some ((handleStop s).1.boogieCurrentMidiNote) := by
  rw [handleStop]
  split_ifs <;> simp_all [midiOnOffOk]

/-- A step acting on the rhythmic voice: a scheduler poll at a given time,
or a MIDI Stop event. -/
inductive BoogieStep where
  | poll (nowMicros : Nat)
  | stop
  deriving Repr

/-- Folding a sequence of scheduler polls and Stop events, concatenating
the emitted traces. -/
def boogieRun (s : SynthState) : List BoogieStep → SynthState × List Ev
  | [] => (s, [])
  | step :: rest =>
      let r := match step with
        | BoogieStep.poll now => handleBoogieTiming now s
        | BoogieStep.stop => handleStop s
      let r2 := boogieRun r.1 rest
      (r2.1, r.2 ++ r2.2)

/-- Claim C5: across every sequence of scheduler polls (swing or triplet
mode alike) and Stop events, a note-on for the rhythmic voice is never
issued while a previously issued note-on has not yet had its matching
note-off issued: the trace satisfies the strict on/off alternation discipline
`midiOnOffOk` from any starting state, with `boogieCurrentMidiNote` (-1 when
silent) tracking the outstanding note, so the scheduler only starts a note
when its sounding-note field is -1. -/
theorem C5_no_double_note_on (s : SynthState) (steps : List BoogieStep) :
    midiOnOffOk s.boogieCurrentMidiNote (boogieRun s steps).2 =
      some ((boogieRun s steps).1.boogieCurrentMidiNote) := by
  induction steps generalizing s with
  | nil => simp [boogieRun, midiOnOffOk]
  | cons step rest ih =>
      cases step with
      | poll now =>
          simp only [boogieRun]
          rw [midiOnOffOk_append _ _ _ _ (handleBoogieTiming_ok now s)]
          exact ih _
      | stop =>
          simp only [boogieRun]
          rw [midiOnOffOk_append _ _ _ _ (handleStop_ok s)]
          exact ih _

/-- With the clock running and no edge, the clock-transition block is the
identity. -/
theorem boogieClockTransitions_id (s : SynthState)
    (hsync : s.midiSyncEnabled = true) (hprev : s.prevMidiSyncEnabled = true) :
    boogieClockTransitions s = (s, []) := by
  simp [boogieClockTransitions, hsync, hprev]

/-- With the clock running, an active trigger and an available prioritized
note, the sequence-trigger block is the identity. -/
theorem boogieSequenceTrigger_id (now : Nat) (np : Int) (s : SynthState) (br : Nat)
    (hsync : s.midiSyncEnabled = true)
    (htrig : s.boogieTriggerButton ≠ -1)
    (hpbn : getBaseMidiNote s ≠ -1) :
    boogieSequenceTrigger now np (getBaseMidiNote s) br s = (s, [], br) := by
  rw [boogieSequenceTrigger, if_pos hsync]
  rw [if_neg (by simp [hpbn])]
  rw [if_neg (by simp [htrig])]

/-- In a poll with locked tempo, running clock without edges, an active
trigger and an available note, the scheduler reduces to the selected rhythm
phase followed by the play phase (triplet phase when both modifiers are
held). -/
theorem c2_handler_shape (s : SynthState) (now : Nat)
    (hL : s.held BTN_L = true) (hR : s.held BTN_R = true)
    (te : s.tempoEstablished = true) (hu : 0 < s.usPerMidiTick)
    (hsync : s.midiSyncEnabled = true) (hprev : s.prevMidiSyncEnabled = true)
    (htrig : s.boogieTriggerButton ≠ -1)
    (hpbn : getBaseMidiNote s ≠ -1)
    (hbeat : s.beatStartTimeMicros ≠ 0) :
    handleBoogieTiming now s =
      (let q := s.usPerMidiTick * 24
       let phase := boogieTripletPhase now s.beatStartTimeMicros q
         ((now - s.beatStartTimeMicros) % ulong q) s
       let fin := boogiePlayPhase now s.beatStartTimeMicros q (getBaseMidiNote s)
         phase.2.2 phase.1
       (fin.1, phase.2.1 ++ fin.2)) := by
  have h0 : ¬(s.tempoEstablished = false ∨ s.usPerMidiTick ≤ 0) := by
    push_neg
    exact ⟨by simp [te], hu⟩
  have hct := boogieClockTransitions_id s hsync hprev
  have hq : ¬(s.usPerMidiTick * 24 ≤ 0) := by
    push_neg
    have h24 : (0 : Rat) < 24 := by norm_num
    exact mul_pos hu h24
  rw [handleBoogieTiming, if_neg h0]
  simp only [hct]
  rw [if_neg hq]
  rw [boogieSequenceTrigger_id now _ s _ hsync htrig hpbn]
  simp only [hsync, if_true]
  rw [if_neg (by push_neg; exact ⟨htrig, hbeat, hpbn⟩)]
  rw [if_pos (⟨hL, hR⟩ : s.held BTN_L = true ∧ s.held BTN_R = true)]
  simp





/-- Claim C2 (amended): in a poll of the beat scheduler in which both
modifier buttons are held (locked tempo, running clock, active sequence),
no swing-mode note-on is issued: any note started in the poll carries the
triplet note duration (its recorded stop time is its start time plus half a
triplet).  However, a note still sounding from swing mode is NOT
force-stopped within the transition poll: because swing slot indices 0 and
1 lie in the 0..2 range the triplet off-check treats as its own, the
lingering note is re-timed under the triplet stop rule — it keeps sounding
(the poll is a no-op) while the current time is before its start time plus
half a triplet duration, and only then is its note-off emitted. -/
theorem C2_triplet_takeover_amended (s : SynthState) (now : Nat)
    (hL : s.held BTN_L = true) (hR : s.held BTN_R = true)
    (te : s.tempoEstablished = true) (hu : 0 < s.usPerMidiTick)
    (hsync : s.midiSyncEnabled = true) (hprev : s.prevMidiSyncEnabled = true)
    (htrig : s.boogieTriggerButton ≠ -1)
    (hpbn : getBaseMidiNote s ≠ -1)
    (hbeat : s.beatStartTimeMicros ≠ 0)
    (hnote : s.boogieCurrentMidiNote ≠ -1)
    (hslot0 : s.boogieCurrentSlotIndex ≥ 0) (hslot2 : s.boogieCurrentSlotIndex ≤ 2) :
    (now < s.boogieNoteStartTimeMicros + ulong (s.usPerMidiTick * 24 / 3 * (1/2)) →
       handleBoogieTiming now s = (s, [])) ∧
    (now ≥ s.boogieNoteStartTimeMicros + ulong (s.usPerMidiTick * 24 / 3 * (1/2)) →
       Ev.midiOff s.boogieCurrentMidiNote ∈ (handleBoogieTiming now s).2) ∧
    (∀ n, Ev.midiOn n ∈ (handleBoogieTiming now s).2 →
       (handleBoogieTiming now s).1.boogieNoteStopTimeMicros =
         (handleBoogieTiming now s).1.boogieNoteStartTimeMicros +
           ulong (s.usPerMidiTick * 24 / 3 * (1/2))) := by
  have hhandler := c2_handler_shape s now hL hR te hu hsync hprev htrig hpbn hbeat
  simp only at hhandler
  refine ⟨?_, ?_, ?_⟩
  · intro hlt
    rw [one_div] at hlt
    have hphase : boogieTripletPhase now s.beatStartTimeMicros (s.usPerMidiTick * 24)
        ((now - s.beatStartTimeMicros) % ulong (s.usPerMidiTick * 24)) s = (s, [], -1) := by
      rw [boogieTripletPhase]
      simp [hnote, hslot0, hslot2, Nat.not_le.mpr hlt]
    rw [hhandler]
    simp only [hphase]
    rw [boogiePlayPhase]
    simp
  · intro hge
    rw [one_div] at hge
    have hphase1 : (boogieTripletPhase now s.beatStartTimeMicros (s.usPerMidiTick * 24)
        ((now - s.beatStartTimeMicros) % ulong (s.usPerMidiTick * 24)) s).2.1 =
          [Ev.midiOff s.boogieCurrentMidiNote, Ev.stopVoice 0] := by
      rw [boogieTripletPhase]
      simp [hnote, hslot0, hslot2, hge]
    rw [hhandler]
    simp [hphase1]
  · intro n hn
    rw [hhandler] at hn ⊢
    rcases List.mem_append.mp hn with hn1 | hn1
    · exfalso
      revert hn1
      rw [boogieTripletPhase]
      by_cases a1 : s.boogieCurrentMidiNote = -1 <;>
        by_cases a2 : s.boogieCurrentSlotIndex ≥ 0 ∧ s.boogieCurrentSlotIndex ≤ 2 <;>
          simp [a1, a2] <;> (try split_ifs) <;> simp_all
    · revert hn1
      rw [boogiePlayPhase]
      by_cases a1 : (boogieTripletPhase now s.beatStartTimeMicros (s.usPerMidiTick * 24)
          ((now - s.beatStartTimeMicros) % ulong (s.usPerMidiTick * 24)) s).2.2 = -1
      · rw [if_neg (by simpa using a1)]
        simp
      · rw [if_pos a1]
        have hheld : (boogieTripletPhase now s.beatStartTimeMicros (s.usPerMidiTick * 24)
            ((now - s.beatStartTimeMicros) % ulong (s.usPerMidiTick * 24)) s).1.held = s.held := by
          rw [boogieTripletPhase]
          by_cases b1 : s.boogieCurrentMidiNote = -1 <;>
            by_cases b2 : s.boogieCurrentSlotIndex ≥ 0 ∧ s.boogieCurrentSlotIndex ≤ 2 <;>
              simp [b1, b2] <;> (try split_ifs) <;> simp_all
        rw [if_pos (by rw [hheld]; exact ⟨hL, hR⟩ :
          (boogieTripletPhase now s.beatStartTimeMicros (s.usPerMidiTick * 24)
            ((now - s.beatStartTimeMicros) % ulong (s.usPerMidiTick * 24)) s).1.held BTN_L = true ∧
          (boogieTripletPhase now s.beatStartTimeMicros (s.usPerMidiTick * 24)
            ((now - s.beatStartTimeMicros) % ulong (s.usPerMidiTick * 24)) s).1.held BTN_R = true)]
        intro _
        simp





/-- A concrete transition poll for claim C2: the tempo is locked at 3000
microseconds per tick (beat = 72000), the external clock is running, button
0 drives the sequence, a swing slot-1 note (36) started at 1036000 with
swing stop time 1054000 is sounding, and both modifiers have just been
pressed in this poll. -/
def c2State : SynthState := { baseState with
  tempoEstablished := true,
  usPerMidiTick := 3000,
  midiSyncEnabled := true,
  prevMidiSyncEnabled := true,
  beatStartTimeMicros := 1000000,
  boogieTriggerButton := 0,
  held := fun i => i = 0 ∨ i = 10 ∨ i = 11,
  pressed := fun i => i = 10 ∨ i = 11,
  lastPressedBuffer := [0, 10, 11, -1, -1, -1, -1, -1],
  lastPressedIndex := 3,
  boogieCurrentMidiNote := 36,
  boogieCurrentSlotIndex := 1,
  boogieNoteStartTimeMicros := 1036000,
  boogieNoteStopTimeMicros := 1054000 }

/-- Claim C2 counterexample: in the poll at time 1037000 that detects the
swing-to-triplet transition (both modifiers freshly pressed and held), the
lingering swing slot-1 note 36 is not stopped: the poll emits no events and
the note keeps sounding, because the re-timed triplet stop time 1048000 has
not been reached.  This contradicts the claim that such a note is stopped
within the same poll regardless of its computed stop time. -/
theorem C2_counterexample :
    c2State.held BTN_L = true ∧ c2State.held BTN_R = true ∧
    c2State.pressed BTN_L = true ∧ c2State.pressed BTN_R = true ∧
    c2State.boogieCurrentMidiNote = 36 ∧ c2State.boogieCurrentSlotIndex = 1 ∧
    handleBoogieTiming 1037000 c2State = (c2State, []) := by
  refine ⟨by decide, by decide, by decide, by decide, by decide, by decide, ?_⟩
  have hshape := c2_handler_shape c2State 1037000 (by decide) (by decide) (by decide)
    (by decide) (by decide) (by decide) (by decide) (by decide) (by decide)
  rw [hshape]
  have e0 : c2State.beatStartTimeMicros = 1000000 := rfl
  have e1 : c2State.usPerMidiTick * 24 = ((72000 : Nat) : Rat) := by
    show (3000 : Rat) * 24 = ((72000 : Nat) : Rat)
    norm_num
  rw [e0, e1]
  simp only [ulong_natCast]
  have hphase : boogieTripletPhase 1037000 1000000 ((72000 : Nat) : Rat)
      ((1037000 - 1000000) % 72000) c2State = (c2State, [], -1) := by
    rw [boogieTripletPhase]
    have e2 : ((72000 : Nat) : Rat) / 3 * (1/2) = ((12000 : Nat) : Rat) := by
      push_cast
      norm_num
    simp only [e2, ulong_natCast]
    norm_num [c2State, baseState]
  rw [hphase]
  rw [boogiePlayPhase]
  simp

/-- Witness for C2 (amended) at the concrete transition poll. -/
theorem C2_triplet_takeover_amended_witness :
    ((1037000 < c2State.boogieNoteStartTimeMicros +
        ulong (c2State.usPerMidiTick * 24 / 3 * (1/2)) →
       handleBoogieTiming 1037000 c2State = (c2State, [])) ∧
    (1037000 ≥ c2State.boogieNoteStartTimeMicros +
        ulong (c2State.usPerMidiTick * 24 / 3 * (1/2)) →
       Ev.midiOff c2State.boogieCurrentMidiNote ∈ (handleBoogieTiming 1037000 c2State).2) ∧
    (∀ n, Ev.midiOn n ∈ (handleBoogieTiming 1037000 c2State).2 →
       (handleBoogieTiming 1037000 c2State).1.boogieNoteStopTimeMicros =
         (handleBoogieTiming 1037000 c2State).1.boogieNoteStartTimeMicros +
           ulong (c2State.usPerMidiTick * 24 / 3 * (1/2)))) :=
  C2_triplet_takeover_amended c2State 1037000 (by decide) (by decide) (by decide)
    (by decide) (by decide) (by decide) (by decide) (by decide) (by decide)
    (by decide) (by decide) (by decide)


/-- The note number carried by an event that starts a note (an audio
`play` or a MIDI note-on); `none` for every other event. -/
def noteOnOf : Ev → Option Int
  | Ev.midiOn n => some n
  | Ev.play _ n => some n
  | _ => none

theorem clamp0to127_bounds (n : Int) : 0 ≤ clamp0to127 n ∧ clamp0to127 n ≤ 127 := by
  simp only [clamp0to127]
  split_ifs <;> omega

theorem handleMonophonic_notes_clamped (s : SynthState) :
    ∀ e ∈ (handleMonophonic s).2, ∀ n, noteOnOf e = some n → 0 ≤ n ∧ n ≤ 127 := by
  intro e he n hne
  simp only [handleMonophonic] at he
  split_ifs at he <;>
    simp only [List.mem_append, List.mem_cons, List.not_mem_nil, or_false,
      false_or, List.mem_singleton] at he <;>
    (repeat' rcases he with he | he) <;>
    first
      | (simp only [noteOnOf, Option.some.injEq] at hne
         subst hne
         exact clamp0to127_bounds _)
      | simp only [noteOnOf, reduceCtorEq] at hne

theorem chordStopLoop_notes_none :
    ∀ fuel notes i, ∀ e ∈ (chordStopLoop notes i fuel).1, noteOnOf e = none := by
  intro fuel
  induction fuel with
  | zero => intro notes i e he; simp [chordStopLoop] at he
  | succ m ih =>
      intro notes i e he
      simp only [chordStopLoop] at he
      split_ifs at he with h
      · rcases List.mem_cons.1 he with rfl | he
        · rfl
        · rcases List.mem_cons.1 he with rfl | he
          · rfl
          · exact ih _ _ e he
      · exact ih _ _ e he

theorem chordPrepLoop_notes_none (p : Bool) :
    ∀ fuel notes i, ∀ e ∈ (chordPrepLoop p notes i fuel).1, noteOnOf e = none := by
  intro fuel
  induction fuel with
  | zero => intro notes i e he; simp [chordPrepLoop] at he
  | succ m ih =>
      intro notes i e he
      simp only [chordPrepLoop] at he
      split_ifs at he with h1 h2
      · rcases List.mem_cons.1 he with rfl | he
        · rfl
        · exact ih _ _ e he
      · rcases List.mem_cons.1 he with rfl | he
        · rfl
        · rcases List.mem_cons.1 he with rfl | he
          · rfl
          · exact ih _ _ e he
      · exact ih _ _ e he

theorem chordPlayLoop_notes_clamped (bend : Int) (cn : List Int) :
    ∀ fuel notes i, ∀ e ∈ (chordPlayLoop bend cn notes i fuel).1,
      ∀ n, noteOnOf e = some n → 0 ≤ n ∧ n ≤ 127 := by
  intro fuel
  induction fuel with
  | zero => intro notes i e he; simp [chordPlayLoop] at he
  | succ m ih =>
      intro notes i e he n hne
      simp only [chordPlayLoop] at he
      split_ifs at he with h
      · rcases List.mem_cons.1 he with rfl | he
        · simp only [noteOnOf, Option.some.injEq] at hne
          subst hne
          exact clamp0to127_bounds _
        · rcases List.mem_cons.1 he with rfl | he
          · simp only [noteOnOf, Option.some.injEq] at hne
            subst hne
            exact clamp0to127_bounds _
          · exact ih _ _ e he n hne
      · exact ih _ _ e he n hne

set_option maxHeartbeats 1000000 in
theorem handleChordButton_notes_clamped (s : SynthState) :
    ∀ e ∈ (handleChordButton s).2, ∀ n, noteOnOf e = some n → 0 ≤ n ∧ n ≤ 127 := by
  intro e he n hne
  simp only [handleChordButton] at he
  split_ifs at he <;>
    simp only [List.mem_append, List.mem_cons, List.not_mem_nil, or_false,
      false_or, List.mem_singleton] at he <;>
    (repeat' rcases he with he | he) <;>
    first
      | (rw [chordStopLoop_notes_none _ _ _ e he] at hne; cases hne)
      | (rw [chordPrepLoop_notes_none _ _ _ _ e he] at hne; cases hne)
      | exact chordPlayLoop_notes_clamped _ _ _ _ _ e he n hne
      | (simp only [noteOnOf, Option.some.injEq] at hne
         subst hne
         exact clamp0to127_bounds _)
      | simp only [noteOnOf, reduceCtorEq] at hne

theorem boogieClockTransitions_notes_none (s : SynthState) :
    ∀ e ∈ (boogieClockTransitions s).2, noteOnOf e = none := by
  simp only [boogieClockTransitions]
  split_ifs <;> simp [noteOnOf]

theorem boogieSequenceTrigger_notes_none (now : Nat) (np pbn : Int) (br : Nat)
    (s : SynthState) :
    ∀ e ∈ (boogieSequenceTrigger now np pbn br s).2.1, noteOnOf e = none := by
  simp only [boogieSequenceTrigger]
  split_ifs <;> simp [noteOnOf]

theorem boogieTripletPhase_notes_none (now br : Nat) (q : Rat) (el : Nat)
    (s : SynthState) :
    ∀ e ∈ (boogieTripletPhase now br q el s).2.1, noteOnOf e = none := by
  simp only [boogieTripletPhase]
  split_ifs <;> simp [noteOnOf]

theorem boogieSwingPhase_notes_none (now br : Nat) (q : Rat) (s : SynthState) :
    ∀ e ∈ (boogieSwingPhase now br q s).2.1, noteOnOf e = none := by
  simp only [boogieSwingPhase]
  split_ifs <;> simp [noteOnOf]

theorem boogiePlayPhase_notes_clamped (now br : Nat) (q : Rat) (pbn ts : Int)
    (s : SynthState) :
    ∀ e ∈ (boogiePlayPhase now br q pbn ts s).2, ∀ n, noteOnOf e = some n →
      0 ≤ n ∧ n ≤ 127 := by
  intro e he n hne
  simp only [boogiePlayPhase] at he
  split_ifs at he <;>
    simp only [List.mem_cons, List.not_mem_nil, or_false] at he <;>
    (repeat' rcases he with he | he) <;>
    first
      | (simp only [noteOnOf, Option.some.injEq] at hne
         subst hne
         exact clamp0to127_bounds _)
      | simp only [noteOnOf, reduceCtorEq] at hne

set_option maxHeartbeats 1000000 in
theorem handleBoogieTiming_notes_clamped (now : Nat) (s : SynthState) :
    ∀ e ∈ (handleBoogieTiming now s).2, ∀ n, noteOnOf e = some n →
      0 ≤ n ∧ n ≤ 127 := by
  intro e he n hne
  simp only [handleBoogieTiming] at he
  split_ifs at he <;>
    simp only [List.mem_append, List.mem_cons, List.not_mem_nil, or_false,
      false_or, List.mem_singleton] at he <;>
    (repeat' rcases he with he | he) <;>
    first
      | (rw [boogieClockTransitions_notes_none _ e he] at hne; cases hne)
      | (rw [boogieSequenceTrigger_notes_none _ _ _ _ _ e he] at hne; cases hne)
      | (rw [boogieTripletPhase_notes_none _ _ _ _ _ e he] at hne; cases hne)
      | (rw [boogieSwingPhase_notes_none _ _ _ _ e he] at hne; cases hne)
      | exact boogiePlayPhase_notes_clamped _ _ _ _ _ _ e he n hne
      | (simp only [noteOnOf, Option.some.injEq] at hne
         subst hne
         exact clamp0to127_bounds _)
      | simp only [noteOnOf, reduceCtorEq] at hne

/-- C8: every note number played to the audio engine or sent as a MIDI
note-on by the Monophonic handler, the Chord handler or the Boogie beat
scheduler lies in [0,127], for every state (button combination, mapping
profile, scale-table contents and pitch-bend offset). -/
theorem C8_pitch_clamp (s : SynthState) (now : Nat) :
    (∀ e ∈ (handleMonophonic s).2, ∀ n, noteOnOf e = some n → 0 ≤ n ∧ n ≤ 127) ∧
    (∀ e ∈ (handleChordButton s).2, ∀ n, noteOnOf e = some n → 0 ≤ n ∧ n ≤ 127) ∧
    (∀ e ∈ (handleBoogieTiming now s).2, ∀ n, noteOnOf e = some n → 0 ≤ n ∧ n ≤ 127) :=
  ⟨handleMonophonic_notes_clamped s, handleChordButton_notes_clamped s,
   handleBoogieTiming_notes_clamped now s⟩

/-- Fixture for the C8 witness: note button 5 freshly pressed. -/
def c8State : SynthState :=
  { baseState with held := fun i => i = 5, pressed := fun i => i = 5 }

/-- Witness for C8 at a concrete state: pressing button 5 makes the
Monophonic handler emit a note-on for note 60, which the theorem bounds
to [0,127]. -/
theorem C8_pitch_clamp_witness :
    (Ev.midiOn 60 ∈ (handleMonophonic c8State).2 ∧ noteOnOf (Ev.midiOn 60) = some 60) ∧
    (0 ≤ (60 : Int) ∧ (60 : Int) ≤ 127) :=
  ⟨⟨by decide, rfl⟩,
   (C8_pitch_clamp c8State 0).1 (Ev.midiOn 60) (by decide) 60 rfl⟩



/-- MIDI single-note discipline tracker: follows a trace from a currently
sounding note (`-1` for none) and returns the note sounding afterwards, or
`none` as soon as a note-on arrives while a different note is still
sounding.  Note-offs for a non-sounding note are ignored; non-MIDI events
are skipped. -/
def monoTrack : Int → List Ev → Option Int
  | cur, [] => some cur
  | cur, Ev.midiOn n :: rest =>
      if cur = -1 ∨ cur = n then monoTrack n rest else none
  | cur, Ev.midiOff n :: rest =>
      monoTrack (if cur = n then -1 else cur) rest
  | cur, _ :: rest => monoTrack cur rest

/-- Fixture for the C9 counterexample: Thunderstruck profile, L and R held,
L freshly pressed while note 71 (from the earlier L press, current button
10) is still sounding. -/
def c9State : SynthState := { baseState with
  customProfileIndex := PROFILE_THUNDERSTRUCK,
  held := fun i => i = 10 ∨ i = 11,
  pressed := fun i => i = 10,
  currentButton := 10,
  currentMidiNote := 71 }

/-- Claim C9 counterexample: in `c9State` the press path re-resolves the
already-current button L to pitch 83 (71 bent up by the held R) and emits
a note-on for 83 without any note-off for the sounding 71 — the press path
only sends the note-off when the pressed button differs from the current
one — so two MIDI notes sound simultaneously and the tracker reports the
violation. -/
theorem C9_counterexample :
    c9State.currentMidiNote = 71 ∧
    (handleMonophonic c9State).2 = [Ev.play 0 83, Ev.midiOn 83] ∧
    monoTrack c9State.currentMidiNote (handleMonophonic c9State).2 = none := by
  decide

/-- The released-button result of the monophonic scan is either the
accumulator or the current button (the released check only fires on the
current button). -/
theorem monoScanLoop_snd_cases (s : SynthState) :
    ∀ fuel i acc, (monoScanLoop s i fuel acc).2.1 = acc.2.1 ∨
      (monoScanLoop s i fuel acc).2.1 = s.currentButton := by
  intro fuel
  induction fuel with
  | zero => intro i acc; left; rfl
  | succ m ih =>
      intro i acc
      rw [monoScanLoop]
      rcases ih (i+1) ((if s.pressed i then (i : Int) else acc.1),
          (if s.released i ∧ (i : Int) = s.currentButton then (i : Int) else acc.2.1),
          (if s.held i ∧ acc.2.2 = -1 then (i : Int) else acc.2.2)) with h1 | h1
      · rw [h1]
        by_cases h2 : s.released i = true ∧ (i : Int) = s.currentButton
        · right; simp [h2.1, h2.2]
        · left; simp only []
          have : ¬((s.released i = true) ∧ (i : Int) = s.currentButton) := h2
          simp [this]
      · right; exact h1

/-- The released-button scan result of `monoInputs` is -1 or the current
button. -/
theorem monoInputs_snd_cases (s : SynthState) :
    (monoInputs s).2.1 = -1 ∨ (monoInputs s).2.1 = s.currentButton := by
  simp only [monoInputs]
  split_ifs <;>
    simpa using monoScanLoop_snd_cases s MAX_NOTE_BUTTONS 0 (-1, -1, -1)

/-- The first-held-except scan never returns the skipped index (other than
through its -1 failure value). -/
theorem firstHeldExceptFrom_cases (s : SynthState) (skip : Int) :
    ∀ fuel i, firstHeldExceptFrom s skip i fuel = -1 ∨
      firstHeldExceptFrom s skip i fuel ≠ skip := by
  intro fuel
  induction fuel with
  | zero => intro i; left; rfl
  | succ m ih =>
      intro i
      rw [firstHeldExceptFrom]
      split_ifs with h
      · right; exact h.1
      · exact ih (i+1)

set_option maxHeartbeats 1000000 in
/-- Single-note discipline of the Monophonic handler, conditional on no
fresh press of the already-current button while its note sounds. -/
theorem monoTrack_handleMonophonic (s : SynthState)
    (H : s.currentMidiNote ≠ -1 → (monoInputs s).1 ≠ s.currentButton) :
    monoTrack s.currentMidiNote (handleMonophonic s).2 =
      some ((handleMonophonic s).1.currentMidiNote) := by
  simp only [handleMonophonic]
  split_ifs <;> simp_all [monoTrack] <;> tauto



set_option maxHeartbeats 1000000 in
/-- A note-off emitted by the Monophonic handler always accompanies a
change of selected button or of sounding pitch. -/
theorem handleMonophonic_off_requires_change (s : SynthState) :
    ∀ m, Ev.midiOff m ∈ (handleMonophonic s).2 →
      (handleMonophonic s).1.currentButton ≠ s.currentButton ∨
      (handleMonophonic s).1.currentMidiNote ≠ s.currentMidiNote := by
  intro m hm
  simp only [handleMonophonic] at hm ⊢
  split_ifs at hm ⊢ <;>
    first
      | (simp_all; done)
      | (simp_all; omega)
      | (rcases monoInputs_snd_cases s with hrb | hrb
         · simp_all
         · rcases firstHeldExceptFrom_cases s (monoInputs s).2.1 MAX_NOTE_BUTTONS 0 with hf | hf
           · simp_all
           · rw [hrb] at hf
             simp_all)

set_option maxHeartbeats 1000000 in
/-- When nothing is pressed or released and the pitch-bend re-resolution
of the current button yields the already-sounding pitch, the Monophonic
handler emits no note-off and no note-on. -/
theorem handleMonophonic_bend_same_pitch (s : SynthState)
    (h1 : (monoInputs s).1 = -1) (h2 : (monoInputs s).2.1 = -1)
    (h3 : clamp0to127 (monoBaseNoteWithLCase s s.currentButton + monoCurrentPitchBend s) =
      s.currentMidiNote) :
    ∀ m, Ev.midiOff m ∉ (handleMonophonic s).2 ∧ Ev.midiOn m ∉ (handleMonophonic s).2 := by
  intro m
  have hb := clamp0to127_bounds (monoBaseNoteWithLCase s s.currentButton + monoCurrentPitchBend s)
  simp only [handleMonophonic]
  split_ifs <;>
    first
      | (simp_all; done)
      | (exfalso; omega)
      | (simp_all; omega)



/-- Claim C9 (amended): provided no poll presses the already-current
button while its note sounds (hypothesis H — violated only in the
Thunderstruck L-repress corner of `C9_counterexample`), the Monophonic
handler preserves the at-most-one-sounding-note discipline (the tracker
follows the whole trace and ends at the new current note); unconditionally,
a note-off is sent only when the selected button or the sounding pitch
changes; and when a pitch-bend change re-resolves the current button to
the same effective pitch with no press and no release, no note-off or
note-on is sent. -/
theorem C9_mono_single_note_amended (s : SynthState)
    (H : s.currentMidiNote ≠ -1 → (monoInputs s).1 ≠ s.currentButton) :
    monoTrack s.currentMidiNote (handleMonophonic s).2 =
      some ((handleMonophonic s).1.currentMidiNote) ∧
    (∀ m, Ev.midiOff m ∈ (handleMonophonic s).2 →
      (handleMonophonic s).1.currentButton ≠ s.currentButton ∨
      (handleMonophonic s).1.currentMidiNote ≠ s.currentMidiNote) ∧
    ((monoInputs s).1 = -1 → (monoInputs s).2.1 = -1 →
      clamp0to127 (monoBaseNoteWithLCase s s.currentButton + monoCurrentPitchBend s) =
        s.currentMidiNote →
      ∀ m, Ev.midiOff m ∉ (handleMonophonic s).2 ∧ Ev.midiOn m ∉ (handleMonophonic s).2) :=
  ⟨monoTrack_handleMonophonic s H,
   handleMonophonic_off_requires_change s,
   fun h1 h2 h3 => handleMonophonic_bend_same_pitch s h1 h2 h3⟩

/-- Fixture for the C9 witness: note button 5 freshly pressed, nothing
sounding. -/
def c9wState : SynthState :=
  { baseState with held := fun i => i = 5, pressed := fun i => i = 5 }

/-- Witness for the amended C9 theorem: at the concrete press poll
`c9wState` the hypothesis holds and the tracker follows the trace to the
new note 60. -/
theorem C9_mono_single_note_amended_witness :
    (c9wState.currentMidiNote ≠ -1 → (monoInputs c9wState).1 ≠ c9wState.currentButton) ∧
    monoTrack c9wState.currentMidiNote (handleMonophonic c9wState).2 =
      some ((handleMonophonic c9wState).1.currentMidiNote) :=
  ⟨by decide, (C9_mono_single_note_amended c9wState (by decide)).1⟩

end SnesSynth
